import Mathlib

/-!
Verification development for the VISTA trust pipeline (mit-ll/VISTA).

This file shallowly embeds the parts of the source that the claims touch:

* `src/vista/utils.py` — datetime/tick encoding and bounding-box containment;
* `src/vista/models/domain.py` — the wire codec (`TokenPayload`, `Token`,
  `StateUpdate`, `Message`) and the layered `validate_` methods;
* `src/vista/transceiver/application.py` — `Baseline.validate_msg` and
  `BlackHat.receive`;
* `src/vista/transceiver/nav_src.py` — the `Random` nav source;
* `src/vista/authority.py` — key-epoch selection, epoch extension and token
  minting;
* `src/vista/crypto/pks.py` — the `verify` wrapper;
* `src/vista/transceiver/__init__.py` / `link.py` — the asyncio queues.

Modelling conventions:

* A Python `datetime` is an integer count of microseconds since
  0001-01-01T00:00:00 (UTC), i.e. since Python's `datetime.min`; this is the
  resolution of `datetime`, so the embedding is exact.
* Python byte strings are `List Nat` with entries < 256 (stated as hypotheses
  where they matter).
* Python floats that are only compared (coordinates, velocities, POSIX
  timestamps) are embedded as `ℚ`; comparisons on IEEE doubles agree with the
  rational order on their exact values.  Where a float is serialized as an
  IEEE-754 binary32 (`struct` format `f`), the rounding to binary32 is
  modelled explicitly (`f32enc?` / `f32dec`); `f32enc?` returns `none` where
  CPython's `struct.pack` raises `OverflowError` (magnitude above the largest
  finite binary32), and `f32dec` is only applied to words produced by
  `f32enc?`, so the non-finite encodings (exponent field 255) never arise.
* `standard_b64decode` is modelled strictly (`none` on a character outside
  the alphabet); CPython silently discards such characters, but every use in
  the claims is on canonical base64 text, where the two agree.
* Settings are fixed at their defaults (`time_resolution_ms = 500`,
  `min_datetime = 2020-01-01T00:00:00Z`, `key_rotation_mins = 5`,
  `key_expiration_buffer_ms = 500`), as in `src/vista/settings.py`.
-/

/-- Decidable equality on `Except`, for evaluating concrete results. -/
instance {e a : Type} [DecidableEq e] [DecidableEq a] :
    DecidableEq (Except e a) :=
  fun x y =>
    match x, y with
    | .error e1, .error e2 =>
      if h : e1 = e2 then isTrue (congrArg Except.error h)
      else isFalse (fun hh => h (Except.error.inj hh))
    | .error _, .ok _ => isFalse (fun hh => Except.noConfusion hh)
    | .ok _, .error _ => isFalse (fun hh => Except.noConfusion hh)
    | .ok a1, .ok a2 =>
      if h : a1 = a2 then isTrue (congrArg Except.ok h)
      else isFalse (fun hh => h (Except.ok.inj hh))

/-! ## Byte-string utilities -/

/-- Big-endian base-256 digits of `n`, `w` bytes wide (the truncating view
`struct` takes of an unsigned integer; all uses are range-checked first, as
`struct.pack` range-checks its integer arguments). -/
def toBytesBE : Nat → Nat → List Nat
  | 0, _ => []
  | w + 1, n => toBytesBE w (n / 256) ++ [n % 256]

/-- Big-endian value of a byte string. -/
def fromBytesBE (l : List Nat) : Nat :=
  l.foldl (fun acc b => acc * 256 + b) 0

/-- The action of a `struct` `ws` field on a byte string: truncate to `w`
bytes and pad on the right with NUL bytes. -/
def sPad (w : Nat) (l : List Nat) : List Nat :=
  l.take w ++ List.replicate (w - l.length) 0

theorem toBytesBE_length (w n : Nat) : (toBytesBE w n).length = w := by
  induction w generalizing n with
  | zero => rfl
  | succ w ih => simp [toBytesBE, ih]

theorem toBytesBE_bytes_lt (w n : Nat) : ∀ b ∈ toBytesBE w n, b < 256 := by
  induction w generalizing n with
  | zero => simp [toBytesBE]
  | succ w ih =>
    intro b hb
    simp only [toBytesBE, List.mem_append, List.mem_singleton] at hb
    rcases hb with hb | hb
    · exact ih _ b hb
    · subst hb; exact Nat.mod_lt _ (by norm_num)

theorem fromBytesBE_append_singleton (l : List Nat) (b : Nat) :
    fromBytesBE (l ++ [b]) = fromBytesBE l * 256 + b := by
  simp [fromBytesBE, List.foldl_append]

theorem fromBytesBE_toBytesBE (w n : Nat) (h : n < 256 ^ w) :
    fromBytesBE (toBytesBE w n) = n := by
  induction w generalizing n with
  | zero =>
    simp [toBytesBE, fromBytesBE]
    omega
  | succ w ih =>
    have hdiv : n / 256 < 256 ^ w := by
      rw [Nat.div_lt_iff_lt_mul (by norm_num)]
      calc n < 256 ^ (w + 1) := h
        _ = 256 ^ w * 256 := by ring
    rw [toBytesBE, fromBytesBE_append_singleton, ih _ hdiv]
    omega

theorem sPad_of_length (w : Nat) (l : List Nat) (h : l.length = w) :
    sPad w l = l := by
  simp [sPad, h, List.take_of_length_le (le_of_eq h)]

theorem sPad_length (w : Nat) (l : List Nat) (h : w ≤ l.length) :
    (sPad w l).length = w := by
  simp [sPad]
  omega

/-- Chained slicing helper: dropping the first block of a concatenation. -/
theorem drop_app {α : Type} (l₁ l₂ : List α) (m : Nat) :
    (l₁ ++ l₂).drop (l₁.length + m) = l₂.drop m := by
  induction l₁ with
  | nil => simp
  | cons a l ih => simp [Nat.succ_add, ih]

/-! ## Base64 (`base64.standard_b64encode` / `standard_b64decode`) -/

/-- ASCII code of the base64 alphabet character for a sextet. -/
def sextetChar (k : Nat) : Nat :=
  if k < 26 then 65 + k
  else if k < 52 then 97 + (k - 26)
  else if k < 62 then 48 + (k - 52)
  else if k = 62 then 43
  else 47

/-- Inverse of `sextetChar`: sextet value of an ASCII code, `none` when the
character is not in the standard alphabet. -/
def charSextet (c : Nat) : Option Nat :=
  if 65 ≤ c ∧ c ≤ 90 then some (c - 65)
  else if 97 ≤ c ∧ c ≤ 122 then some (c - 97 + 26)
  else if 48 ≤ c ∧ c ≤ 57 then some (c - 48 + 52)
  else if c = 43 then some 62
  else if c = 47 then some 63
  else none

/-- Standard base64 of a byte string (ASCII codes; `=` is 61). -/
def b64encode : List Nat → List Nat
  | [] => []
  | [a] => [sextetChar (a / 4), sextetChar (a % 4 * 16), 61, 61]
  | [a, b] => [sextetChar (a / 4), sextetChar (a % 4 * 16 + b / 16),
      sextetChar (b % 16 * 4), 61]
  | a :: b :: c :: rest =>
      sextetChar (a / 4) :: sextetChar (a % 4 * 16 + b / 16) ::
      sextetChar (b % 16 * 4 + c / 64) :: sextetChar (c % 64) :: b64encode rest

/-- Standard base64 decoding of an ASCII string.  Strict: a character outside
the alphabet (or a length not a multiple of 4) gives `none`. -/
def b64decode : List Nat → Option (List Nat)
  | [] => some []
  | c1 :: c2 :: c3 :: c4 :: rest => do
      let s1 ← charSextet c1
      let s2 ← charSextet c2
      if c3 = 61 ∧ c4 = 61 ∧ rest = [] then
        pure [s1 * 4 + s2 / 16]
      else if c4 = 61 ∧ rest = [] then do
        let s3 ← charSextet c3
        pure [s1 * 4 + s2 / 16, s2 % 16 * 16 + s3 / 4]
      else do
        let s3 ← charSextet c3
        let s4 ← charSextet c4
        let r ← b64decode rest
        pure ((s1 * 4 + s2 / 16) :: (s2 % 16 * 16 + s3 / 4) :: (s3 % 4 * 64 + s4) :: r)
  | _ => none

theorem divAddMulBase (n x y : Nat) (hn : 0 < n) (hy : y < n) :
    (x * n + y) / n = x := by
  rw [Nat.add_comm, Nat.add_mul_div_right _ _ hn, Nat.div_eq_of_lt hy,
    Nat.zero_add]

theorem modAddMulBase (n x y : Nat) (hy : y < n) : (x * n + y) % n = y := by
  rw [Nat.mul_comm, Nat.mul_add_mod, Nat.mod_eq_of_lt hy]

theorem charSextet_sextetChar (k : Nat) (h : k < 64) :
    charSextet (sextetChar k) = some k := by
  have : ∀ k : Fin 64, charSextet (sextetChar k.val) = some k.val := by decide
  exact this ⟨k, h⟩

theorem sextetChar_ne_eq (k : Nat) (h : k < 64) : sextetChar k ≠ 61 := by
  have : ∀ k : Fin 64, sextetChar k.val ≠ 61 := by decide
  exact this ⟨k, h⟩

theorem b64decode_b64encode (l : List Nat) (h : ∀ b ∈ l, b < 256) :
    b64decode (b64encode l) = some l := by
  induction l using b64encode.induct with
  | case1 => rfl
  | case2 a =>
    have ha : a < 256 := h a (by simp)
    have h1 : a / 4 < 64 := by omega
    have h2 : a % 4 * 16 < 64 := by omega
    simp only [b64encode, b64decode, charSextet_sextetChar _ h1,
      charSextet_sextetChar _ h2, Option.bind_eq_bind, Option.some_bind]
    simp only [and_self, if_pos rfl, if_true]
    rw [Nat.mul_div_cancel _ (by norm_num : (0:Nat) < 16)]
    simp only [Option.pure_def, Option.some.injEq, List.cons.injEq, and_true]
    omega
  | case3 a b =>
    have ha : a < 256 := h a (by simp)
    have hb : b < 256 := h b (by simp)
    have h1 : a / 4 < 64 := by omega
    have h2 : a % 4 * 16 + b / 16 < 64 := by omega
    have h3 : b % 16 * 4 < 64 := by omega
    simp only [b64encode, b64decode, charSextet_sextetChar _ h1,
      charSextet_sextetChar _ h2, charSextet_sextetChar _ h3,
      Option.bind_eq_bind, Option.some_bind]
    rw [if_neg (by simp [sextetChar_ne_eq _ h3]), if_pos (by simp)]
    rw [divAddMulBase 16 _ _ (by norm_num) (by omega),
      modAddMulBase 16 _ _ (by omega),
      Nat.mul_div_cancel _ (by norm_num : (0:Nat) < 4)]
    simp only [Option.pure_def, Option.some.injEq, List.cons.injEq, and_true]
    omega
  | case4 a b c rest ih =>
    have ha : a < 256 := h a (by simp)
    have hb : b < 256 := h b (by simp)
    have hc : c < 256 := h c (by simp)
    have h1 : a / 4 < 64 := by omega
    have h2 : a % 4 * 16 + b / 16 < 64 := by omega
    have h3 : b % 16 * 4 + c / 64 < 64 := by omega
    have h4 : c % 64 < 64 := by omega
    have ihr : b64decode (b64encode rest) = some rest := by
      refine ih ?_
      intro x hx
      exact h x (by simp [hx])
    rcases rest with _ | ⟨r1, rest'⟩
    · simp only [b64encode, b64decode, charSextet_sextetChar _ h1,
        charSextet_sextetChar _ h2, charSextet_sextetChar _ h3,
        charSextet_sextetChar _ h4, Option.bind_eq_bind, Option.some_bind]
      rw [if_neg (by simp [sextetChar_ne_eq _ h4]),
        if_neg (by simp [sextetChar_ne_eq _ h4])]
      rw [divAddMulBase 16 _ _ (by norm_num) (by omega),
        modAddMulBase 16 _ _ (by omega),
        divAddMulBase 4 _ _ (by norm_num) (by omega),
        modAddMulBase 4 _ _ (by omega)]
      simp only [Option.pure_def, Option.some.injEq, List.cons.injEq, and_true]
      omega
    · have hne : b64encode (r1 :: rest') ≠ [] := by
        rcases rest' with _ | ⟨r2, rest''⟩
        · simp [b64encode]
        · rcases rest'' with _ | ⟨r3, rest'''⟩ <;> simp [b64encode]
      simp only [b64encode, b64decode, charSextet_sextetChar _ h1,
        charSextet_sextetChar _ h2, charSextet_sextetChar _ h3,
        charSextet_sextetChar _ h4, Option.bind_eq_bind, Option.some_bind]
      rw [if_neg (by simp [hne]), if_neg (by simp [hne])]
      rw [ihr, divAddMulBase 16 _ _ (by norm_num) (by omega),
        modAddMulBase 16 _ _ (by omega),
        divAddMulBase 4 _ _ (by norm_num) (by omega),
        modAddMulBase 4 _ _ (by omega)]
      simp only [Option.some_bind, Option.pure_def, Option.some.injEq,
        List.cons.injEq, and_true]
      omega

/-! ## IEEE-754 binary32 (`struct` format `f`)

`struct.pack('!f', x)` rounds the Python float `x` to binary32
(round-to-nearest, ties-to-even) and writes the 4-byte big-endian word;
`struct.unpack` reads it back exactly.  `f32enc?` produces the 32-bit word
(`none` where CPython raises `OverflowError`, i.e. when the rounded magnitude
exceeds the largest finite binary32) and `f32dec` is its exact decoding. -/

/-- Fuel-driven base-2 logarithm on naturals (structural, so it evaluates
inside the kernel; the fuel is always sufficient at `fuel = n`). -/
def log2fuel : Nat → Nat → Nat
  | 0, _ => 0
  | fuel + 1, n => if n < 2 then 0 else 1 + log2fuel fuel (n / 2)

/-- Base-2 logarithm, `⌊log₂ n⌋` for `n ≥ 1`. -/
def natLog2 (n : Nat) : Nat := log2fuel n n

/-- The rational `2 ^ z` (computed through the kernel-accelerated natural
power rather than `zpow`, for evaluation). -/
def pow2q (z : ℤ) : ℚ :=
  if 0 ≤ z then ((2 ^ z.toNat : Nat) : ℚ) else (((2 ^ (-z).toNat : Nat) : ℚ))⁻¹

/-- For `0 < a`, an exponent `e` with `2 ^ e ≤ a < 2 ^ (e + 1)`. -/
def ratLog2 (a : ℚ) : ℤ :=
  let e0 : ℤ := (natLog2 a.num.natAbs : ℤ) - (natLog2 a.den : ℤ)
  if a < pow2q e0 then e0 - 1 else if pow2q (e0 + 1) ≤ a then e0 + 1 else e0

/-- Floor of a rational (`num / den` in euclidean division). -/
def ratFloor (q : ℚ) : ℤ := q.num / (q.den : ℤ)

/-- Round to the nearest integer, ties to even. -/
def roundHalfEven (q : ℚ) : ℤ :=
  let f := ratFloor q
  let r := q - f
  if r < 1/2 then f
  else if 1/2 < r then f + 1
  else if f % 2 = 0 then f else f + 1

/-- Binary32 word for a rational value (round-to-nearest-even; `none` on
overflow, where `struct.pack` raises).  The final `m < 2 ^ 24` guard can only
fail if `ratLog2` were wrong on the input and is never reached. -/
def f32enc? (q : ℚ) : Option Nat :=
  if q = 0 then some 0
  else
    let a := |q|
    let e := ratLog2 a
    let p0 : ℤ := max (e - 23) (-149)
    let m0 := roundHalfEven (a / pow2q p0)
    let m : ℤ := if m0 = 2 ^ 24 then 2 ^ 23 else m0
    let p : ℤ := if m0 = 2 ^ 24 then p0 + 1 else p0
    let sgn : Nat := if q < 0 then 2 ^ 31 else 0
    if m < 2 ^ 23 then some (sgn + m.toNat)
    else if m < 2 ^ 24 then
      if 255 ≤ p + 150 then none
      else some (sgn + (p + 150).toNat * 2 ^ 23 + (m - 2 ^ 23).toNat)
    else none

/-- Exact rational value of a binary32 word (finite cases; the exponent-255
encodings are never produced by `f32enc?`). -/
def f32dec (w : Nat) : ℚ :=
  let sgn : ℚ := if w / 2 ^ 31 % 2 = 1 then -1 else 1
  let E : Nat := w / 2 ^ 23 % 256
  let M : ℚ := ((w % 2 ^ 23 : Nat) : ℚ)
  if E = 0 then sgn * M * pow2q (-149)
  else sgn * (2 ^ 23 + M) * pow2q ((E : ℤ) - 150)

/-- A rational is an exact binary32 value: encoding succeeds and decodes back
to it.  This is the precondition under which a float survives a
`pack`/`unpack` round trip bit-exactly. -/
def IsF32 (q : ℚ) : Bool :=
  match f32enc? q with
  | some w => f32dec w == q
  | none => false

theorem f32enc_lt (q : ℚ) (w : Nat) (h : f32enc? q = some w) : w < 2 ^ 32 := by
  unfold f32enc? at h
  dsimp only at h
  repeat' split at h
  all_goals first
    | (simp only [Option.some.injEq] at h; omega)
    | simp at h

theorem IsF32_spec (q : ℚ) (h : IsF32 q = true) :
    ∃ w, f32enc? q = some w ∧ w < 2 ^ 32 ∧ f32dec w = q := by
  unfold IsF32 at h
  split at h
  · rename_i w hw
    exact ⟨w, hw, f32enc_lt q w hw, by simpa using h⟩
  · exact absurd h (by simp)

/-! ## Time utilities (`src/vista/utils.py`)

Datetimes are microseconds since `datetime.min` (0001-01-01T00:00:00).
`MIN_DATETIME` is 2020-01-01T00:00:00Z (737424 days later); the tick is
`time_resolution_ms = 500`.  Python's `%` on a positive `timedelta` divisor
agrees with `Int.emod`, and the final division in
`encode_datetime_as_int` is exact. -/

def MIN_DATETIME : ℤ := 737424 * 86400 * 1000000

def TIME_RESOLUTION : ℤ := 500 * 1000

/-- The two `decimal` rounding-mode constants accepted by
`encode_datetime_as_int` (any other value raises, which the type rules out
here). -/
inductive Rounding where
  | floor
  | ceiling
deriving DecidableEq

/-- Model of `encode_datetime_as_int`; `none` is the `ValueError` raised for
datetimes before `MIN_DATETIME`. -/
def encode_datetime_as_int (val : ℤ) (rounding : Rounding) : Option ℤ :=
  if val < MIN_DATETIME then none
  else
    let v : ℤ :=
      match rounding with
      | .floor => val - (val - MIN_DATETIME) % TIME_RESOLUTION
      | .ceiling => val + (MIN_DATETIME - val) % TIME_RESOLUTION
    some ((v - MIN_DATETIME) / TIME_RESOLUTION)

/-- Model of `decode_datetime_from_int`. -/
def decode_datetime_from_int (val : ℤ) : ℤ :=
  val * TIME_RESOLUTION + MIN_DATETIME

/-! ## Bounding boxes (`bbox_includes`) -/

/-- RFC7946 bounding box: southwesterly corner then northeasterly corner,
as the 4-tuple `(west, south, east, north)` is used in the source. -/
structure BBox where
  west : ℚ
  south : ℚ
  east : ℚ
  north : ℚ
deriving DecidableEq

inductive CoordError where
  | longitudeRange
  | latitudeRange
deriving DecidableEq

/-- One iteration of the range-check loop in `bbox_includes`. -/
def checkCoords (lon lat : ℚ) : Except CoordError Unit :=
  if 180 < |lon| then .error .longitudeRange
  else if 90 < |lat| then .error .latitudeRange
  else .ok ()

/-- Model of `bbox_includes`; the `.error` results are the `ValueError`s
raised for out-of-range coordinates. -/
def bbox_includes (bbox : BBox) (point : ℚ × ℚ) : Except CoordError Bool := do
  checkCoords point.1 point.2
  checkCoords bbox.west bbox.south
  checkCoords bbox.east bbox.north
  let lon := point.1
  let lat := point.2
  if bbox.north < lat ∨ lat < bbox.south then pure false
  else if bbox.east < bbox.west then
    pure (decide (bbox.west ≤ lon ∨ lon ≤ bbox.east))
  else
    pure (decide (bbox.west ≤ lon ∧ lon ≤ bbox.east))

/-! ## GUFIs

A GUFI (`uuid.UUID`) is its 128-bit integer value.  `str(gufi)` is the
dashed lowercase hex form; pydantic's `UUID4` field type accepts exactly the
values whose variant is RFC 4122 and whose version nibble is 4. -/

/-- The pydantic `UUID4` validation: RFC 4122 variant and version 4. -/
def isUUID4 (g : Nat) : Bool :=
  decide (g / 2 ^ 76 % 16 = 4) && decide (g / 2 ^ 62 % 4 = 2)

/-- ASCII code of the lowercase hex digit for `n < 16`. -/
def hexDigit (n : Nat) : Nat := if n < 10 then 48 + n else 87 + n

/-- The 32 hex digits of a 128-bit value, most significant first. -/
def hex32 (g : Nat) : List Nat :=
  (List.range 32).map fun i => hexDigit (g / 16 ^ (31 - i) % 16)

/-- ASCII codes of `str(gufi)`: 8-4-4-4-12 hex groups joined by `-` (45). -/
def gufiStr (g : Nat) : List Nat :=
  let h := hex32 g
  h.take 8 ++ [45] ++ (h.drop 8).take 4 ++ [45] ++ (h.drop 12).take 4 ++
    [45] ++ (h.drop 16).take 4 ++ [45] ++ h.drop 20

/-! ## Domain wire models (`src/vista/models/domain.py`)

Structures carry the field types the pydantic models enforce; pack returns
`none` where the Python `pack` raises (`encode_datetime_as_int` on a datetime
before the epoch, `struct` range errors on `I` fields, binary32 overflow,
base64 failure on a malformed signature component), and unpack returns
`none` where `struct.unpack` (wrong length), `UUID4` validation, or charm
deserialization would raise. -/

/-- `TokenPayload`: `gufi` is the UUID's 128-bit value, `nbf`/`exp` are
datetimes, `bbox` as in RFC7946. -/
structure TokenPayload where
  gufi : Nat
  nbf : ℤ
  exp : ℤ
  bbox : BBox
deriving DecidableEq

/-- `TokenPayload.pack`: `struct.pack('! 16s 2I 4f', gufi.bytes,
encode(nbf, FLOOR), encode(exp, CEILING), *bbox)`. -/
def TokenPayload.pack (p : TokenPayload) : Option (List Nat) := do
  let cn ← encode_datetime_as_int p.nbf .floor
  let ce ← encode_datetime_as_int p.exp .ceiling
  if cn < 2 ^ 32 ∧ ce < 2 ^ 32 then
    let ww ← f32enc? p.bbox.west
    let ws ← f32enc? p.bbox.south
    let we ← f32enc? p.bbox.east
    let wn ← f32enc? p.bbox.north
    pure (toBytesBE 16 p.gufi ++ toBytesBE 4 cn.toNat ++ toBytesBE 4 ce.toNat
      ++ toBytesBE 4 ww ++ toBytesBE 4 ws ++ toBytesBE 4 we ++ toBytesBE 4 wn)
  else none

/-- `TokenPayload.unpack`: split the 40-byte string at the `struct` offsets,
rebuild the UUID (pydantic validates it as a version-4 UUID) and decode the
time codes. -/
def TokenPayload.unpack (l : List Nat) : Option TokenPayload :=
  if l.length = 40 then
    let g := fromBytesBE (l.take 16)
    let r1 := l.drop 16
    let cn := fromBytesBE (r1.take 4)
    let r2 := r1.drop 4
    let ce := fromBytesBE (r2.take 4)
    let r3 := r2.drop 4
    let ww := fromBytesBE (r3.take 4)
    let r4 := r3.drop 4
    let ws := fromBytesBE (r4.take 4)
    let r5 := r4.drop 4
    let we := fromBytesBE (r5.take 4)
    let r6 := r5.drop 4
    let wn := fromBytesBE (r6.take 4)
    if isUUID4 g then
      some { gufi := g
             nbf := decode_datetime_from_int cn
             exp := decode_datetime_from_int ce
             bbox := ⟨f32dec ww, f32dec ws, f32dec we, f32dec wn⟩ }
    else none
  else none

/-- `Token`: payload, key id, detached 64-byte conventional signature. -/
structure Token where
  payload : TokenPayload
  kid : Nat
  signature : List Nat
deriving DecidableEq

/-- `Token.pack`: `struct.pack('! 40s I 64s', payload.pack(), kid,
signature)`. -/
def Token.pack (t : Token) : Option (List Nat) := do
  let pb ← t.payload.pack
  if t.kid < 2 ^ 32 then
    pure (sPad 40 pb ++ toBytesBE 4 t.kid ++ sPad 64 t.signature)
  else none

/-- `Token.unpack` on a 108-byte binary string. -/
def Token.unpack (l : List Nat) : Option Token :=
  if l.length = 108 then do
    let p ← TokenPayload.unpack (l.take 40)
    let r1 := l.drop 40
    pure { payload := p
           kid := fromBytesBE (r1.take 4)
           signature := r1.drop 4 }
  else none

/-- The argument of the source `Token.unpack`, which accepts the 108-byte
binary form or its base64 ASCII transport form. -/
inductive TokenWire where
  | bin (data : List Nat)
  | str (data : List Nat)
deriving DecidableEq

/-- `Token.unpack` with the `isinstance(data, str)` dispatch of the source:
a str argument is base64-decoded first. -/
def Token.unpackWire : TokenWire → Option Token
  | .bin data => Token.unpack data
  | .str data => (b64decode data).bind Token.unpack

/-- `StateUpdate`: seven floats (`struct` format `! 7f`). -/
structure StateUpdate where
  lat_deg : ℚ
  lon_deg : ℚ
  alt_hae_ft : ℚ
  vel_ew_fps : ℚ
  vel_ns_fps : ℚ
  vel_vert_fps : ℚ
  toa_utc : ℚ
deriving DecidableEq

/-- `StateUpdate.pack` (the generic `DomainBaseModel.pack` at `! 7f`). -/
def StateUpdate.pack (s : StateUpdate) : Option (List Nat) := do
  let w1 ← f32enc? s.lat_deg
  let w2 ← f32enc? s.lon_deg
  let w3 ← f32enc? s.alt_hae_ft
  let w4 ← f32enc? s.vel_ew_fps
  let w5 ← f32enc? s.vel_ns_fps
  let w6 ← f32enc? s.vel_vert_fps
  let w7 ← f32enc? s.toa_utc
  pure (toBytesBE 4 w1 ++ toBytesBE 4 w2 ++ toBytesBE 4 w3 ++ toBytesBE 4 w4
    ++ toBytesBE 4 w5 ++ toBytesBE 4 w6 ++ toBytesBE 4 w7)

/-- `StateUpdate.unpack` on a 28-byte string. -/
def StateUpdate.unpack (l : List Nat) : Option StateUpdate :=
  if l.length = 28 then
    let r1 := l.drop 4
    let r2 := r1.drop 4
    let r3 := r2.drop 4
    let r4 := r3.drop 4
    let r5 := r4.drop 4
    let r6 := r5.drop 4
    some { lat_deg := f32dec (fromBytesBE (l.take 4))
           lon_deg := f32dec (fromBytesBE (r1.take 4))
           alt_hae_ft := f32dec (fromBytesBE (r2.take 4))
           vel_ew_fps := f32dec (fromBytesBE (r3.take 4))
           vel_ns_fps := f32dec (fromBytesBE (r4.take 4))
           vel_vert_fps := f32dec (fromBytesBE (r5.take 4))
           toa_utc := f32dec (fromBytesBE (r6.take 4)) }
  else none

/-- An IBS signature: each component is a charm `PairingElement`, identified
with its canonical serialization, the ASCII bytes `1:` followed by the
base64 of the 21-byte group element. -/
structure IbsSignature where
  S1 : List Nat
  S2 : List Nat
  S3 : List Nat
deriving DecidableEq

/-- `Message`: token, IBS root key id, state payload, IBS signature. -/
structure Message where
  token : Token
  kid : Nat
  payload : StateUpdate
  signature : IbsSignature
deriving DecidableEq

/-- `Message.pack`: `struct.pack('! 108s I 28s 21s 21s 21s', token.pack(),
kid, payload.pack(), b64decode(S1[2:]), b64decode(S2[2:]),
b64decode(S3[2:]))` — each signature component is serialized, stripped of
its 2-byte scheme prefix and base64-decoded to its 21 raw bytes. -/
def Message.pack (m : Message) : Option (List Nat) := do
  let tb ← m.token.pack
  let pb ← m.payload.pack
  let r1 ← b64decode (m.signature.S1.drop 2)
  let r2 ← b64decode (m.signature.S2.drop 2)
  let r3 ← b64decode (m.signature.S3.drop 2)
  if m.kid < 2 ^ 32 then
    pure (sPad 108 tb ++ toBytesBE 4 m.kid ++ sPad 28 pb ++ sPad 21 r1
      ++ sPad 21 r2 ++ sPad 21 r3)
  else none

/-- `Message.unpack` on a 203-byte string; each signature component is
rebuilt as `b'1:' + standard_b64encode(raw)` (ASCII `1:` is `[49, 58]`). -/
def Message.unpack (l : List Nat) : Option Message :=
  if l.length = 203 then do
    let t ← Token.unpack (l.take 108)
    let r1 := l.drop 108
    let r2 := r1.drop 4
    let su ← StateUpdate.unpack (r2.take 28)
    let r3 := r2.drop 28
    let r4 := r3.drop 21
    pure { token := t
           kid := fromBytesBE (r1.take 4)
           payload := su
           signature :=
             { S1 := 49 :: 58 :: b64encode (r3.take 21)
               S2 := 49 :: 58 :: b64encode (r4.take 21)
               S3 := 49 :: 58 :: b64encode ((r4.drop 21).take 21) } }
  else none

/-! ## Validation (`domain.py` `validate_` chain and
`application.py` `Baseline.validate_msg`)

The two conventional/IBS `verify` primitives are external library calls
(`cryptography` Ed25519 and charm's Waters scheme); they are parameters of
the validation model, with their key material left abstract.  The
`Except VErr` results are the `ValidationError`s raised by the source; the
`longitudeRange`/`latitudeRange` cases are the `ValueError`s that
`bbox_includes` raises past `validate_`, and `packFailure` the errors a
failing `pack()` call would raise inside validation. -/

inductive VErr where
  | noMessageKey
  | messageKeyExpired
  | messageKeyNotYetValid
  | noTokenKey
  | tokenKeyExpired
  | tokenKeyNotYetValid
  | tokenExpired
  | tokenNotYetValid
  | tokenSpatialBoundsExceeded
  | tokenSignatureInvalid
  | messageSignatureInvalid
  | longitudeRange
  | latitudeRange
  | packFailure
deriving DecidableEq

/-- `TokenPayload.validate_`: expiry, start of validity, then spatial
containment. -/
def TokenPayload.validate_ (p : TokenPayload) (time : ℤ) (loc : ℚ × ℚ) :
    Except VErr Unit :=
  if p.exp < time then .error .tokenExpired
  else if time < p.nbf then .error .tokenNotYetValid
  else
    match bbox_includes p.bbox loc with
    | .error .longitudeRange => .error .longitudeRange
    | .error .latitudeRange => .error .latitudeRange
    | .ok true => .ok ()
    | .ok false => .error .tokenSpatialBoundsExceeded

/-- `Token.validate_`: payload checks, then the conventional signature over
the packed payload. -/
def Token.validate_ {PK : Type} (pksVerify : PK → List Nat → List Nat → Bool)
    (t : Token) (token_key : PK) (time : ℤ) (loc : ℚ × ℚ) :
    Except VErr Unit := do
  t.payload.validate_ time loc
  match t.payload.pack with
  | none => .error .packFailure
  | some pb =>
    if pksVerify token_key pb t.signature then .ok ()
    else .error .tokenSignatureInvalid

/-- `Message.validate_`: token checks, then the IBS signature over the
packed state payload under identity `str(token.payload.gufi)`. -/
def Message.validate_ {PK PP : Type}
    (pksVerify : PK → List Nat → List Nat → Bool)
    (ibsVerify : PP → List Nat → List Nat → IbsSignature → Bool)
    (m : Message) (message_key : PP) (token_key : PK) (time : ℤ)
    (loc : ℚ × ℚ) : Except VErr Unit := do
  m.token.validate_ pksVerify token_key time loc
  match m.payload.pack with
  | none => .error .packFailure
  | some pb =>
    if ibsVerify message_key (gufiStr m.token.payload.gufi) pb m.signature
    then .ok ()
    else .error .messageSignatureInvalid

/-- Transceiver-side record of an IBS root public key
(`application.MessageKey`). -/
structure MessageKey (PP : Type) where
  kid : Nat
  nbf : ℤ
  exp : ℤ
  public_key : PP
deriving DecidableEq

/-- Transceiver-side record of a conventional public key
(`application.TokenKey`). -/
structure TokenKey (PK : Type) where
  kid : Nat
  nbf : ℤ
  exp : ℤ
  public_key : PK
deriving DecidableEq

/-- `Baseline.validate_msg`: message-key lookup and window, token-key lookup
and window, then the domain `validate_` chain. -/
def validate_msg {PK PP : Type}
    (pksVerify : PK → List Nat → List Nat → Bool)
    (ibsVerify : PP → List Nat → List Nat → IbsSignature → Bool)
    (message_keys : Nat → Option (MessageKey PP))
    (token_keys : Nat → Option (TokenKey PK))
    (msg : Message) (time : ℤ) (loc : ℚ × ℚ) : Except VErr Unit :=
  match message_keys msg.kid with
  | none => .error .noMessageKey
  | some message_key =>
    if message_key.exp < time then .error .messageKeyExpired
    else if time < message_key.nbf then .error .messageKeyNotYetValid
    else
      match token_keys msg.token.kid with
      | none => .error .noTokenKey
      | some token_key =>
        if token_key.exp < time then .error .tokenKeyExpired
        else if time < token_key.nbf then .error .tokenKeyNotYetValid
        else
          msg.validate_ pksVerify ibsVerify message_key.public_key
            token_key.public_key time loc

/-! ## Nav source and the black-hat role (`nav_src.py`,
`application.BlackHat`) -/

/-- Microseconds from `datetime.min` to the POSIX epoch
(1970-01-01T00:00:00, 719162 days). -/
def EPOCH_1970 : ℤ := 719162 * 86400 * 1000000

/-- `datetime.timestamp()` of a UTC datetime, in seconds (the model assumes
a UTC environment for the naive datetimes the black hat builds). -/
def datetimeToPosix (t : ℤ) : ℚ := ((t - EPOCH_1970 : ℤ) : ℚ) / 1000000

/-- `datetime.utcfromtimestamp`: POSIX seconds to a datetime, rounding to
the microsecond. -/
def utcfromtimestamp (q : ℚ) : ℤ := EPOCH_1970 + roundHalfEven (q * 1000000)

/-- `random.uniform(a, b) = a + (b - a) * random()`. -/
def uniform (a b u : ℚ) : ℚ := a + (b - a) * u

/-- The six `random()` draws one `Random.get_state` call consumes, in call
order (lat, lon, alt, vel_ew, vel_ns, vel_vert); each lies in `[0, 1)`. -/
structure Randoms where
  r1 : ℚ
  r2 : ℚ
  r3 : ℚ
  r4 : ℚ
  r5 : ℚ
  r6 : ℚ
deriving DecidableEq

/-- `nav_src.Random.get_state` for a nav source constructed over `bbox`. -/
def RandomNavSource.get_state (bbox : BBox) (u : Randoms) (toa : ℤ) :
    StateUpdate :=
  { lat_deg := uniform bbox.south bbox.north u.r1
    lon_deg := uniform bbox.west bbox.east u.r2
    alt_hae_ft := uniform 0 10000 u.r3
    vel_ew_fps := uniform (-250) 250 u.r4
    vel_ns_fps := uniform (-250) 250 u.r5
    vel_vert_fps := uniform (-50) 50 u.r6
    toa_utc := datetimeToPosix toa }

/-- `BlackHat.receive`: unpack, validate against the message's own reported
position `(lon_deg, lat_deg)`, and on success replace the payload with a
random state inside the token's bbox at the original `toa_utc` and repack
for transmission.  The result is the byte string offered to the transmit
queue, `none` when nothing is transmitted (validation failure, or an
exception killing the worker). -/
def blackHatReceive {PK PP : Type}
    (pksVerify : PK → List Nat → List Nat → Bool)
    (ibsVerify : PP → List Nat → List Nat → IbsSignature → Bool)
    (message_keys : Nat → Option (MessageKey PP))
    (token_keys : Nat → Option (TokenKey PK))
    (u : Randoms) (time : ℤ) (data : List Nat) : Option (List Nat) := do
  let msg ← Message.unpack data
  let pos := (msg.payload.lon_deg, msg.payload.lat_deg)
  match validate_msg pksVerify ibsVerify message_keys token_keys msg time pos
  with
  | .error _ => none
  | .ok _ =>
    let navState := RandomNavSource.get_state msg.token.payload.bbox u
      (utcfromtimestamp msg.payload.toa_utc)
    Message.pack { msg with payload := navState }

/-! ## Authority (`src/vista/authority.py`)

`KEY_INTERVAL = 5 min`, `KEY_EXP_BUFFER = 500 ms`.  The token-key and
root-key code paths are textually identical up to the table they touch, so
one model covers each pair of functions (`choose_token_keys` /
`choose_root_keys`, `add_token_keys` / `add_root_keys`,
`generate_token_keys` / `generate_root_keys`), with the per-epoch key
material abstracted by a type parameter. -/

def KEY_INTERVAL : ℤ := 5 * 60 * 1000000

def KEY_EXP_BUFFER : ℤ := 500 * 1000

/-- A persisted key epoch row (`database.TokenKey` / `database.RootKey`):
primary key `pk`, validity window, and key material `key`. -/
structure KeyEpoch (κ : Type) where
  pk : Nat
  nbf : ℤ
  exp : ℤ
  key : κ
deriving DecidableEq

/-- A freshly generated, not yet persisted epoch (no primary key yet). -/
structure FreshEpoch (κ : Type) where
  nbf : ℤ
  exp : ℤ
  key : κ
deriving DecidableEq

/-- `choose_token_keys` / `choose_root_keys`: the rows with
`exp > start ∧ nbf < end`, ordered by `nbf` ascending (the SQL order; ties
in `nbf` are returned in an unspecified order, here the stable sort of the
table order).  `.error` is the `ValueError` raised when the rows are empty
or end before `end`. -/
def chooseKeys {κ : Type} (db : List (KeyEpoch κ)) (start endT : ℤ) :
    Except Unit (List (KeyEpoch κ)) :=
  match (List.insertionSort (fun a b => a.nbf ≤ b.nbf)
      (db.filter fun k =>
        decide (start < k.exp) && decide (k.nbf < endT))).getLast? with
  | none => .error ()
  | some lastKey =>
    if lastKey.exp < endT then .error ()
    else .ok (List.insertionSort (fun a b => a.nbf ≤ b.nbf)
      (db.filter fun k => decide (start < k.exp) && decide (k.nbf < endT)))

/-- The `order_by(exp.desc()).first()` query in `add_token_keys` /
`add_root_keys`: the `(nbf, exp)` of a row with maximal `exp` (`none` on an
empty table; ties broken arbitrarily by the database, here by first
position). -/
def lastEpoch {κ : Type} (db : List (KeyEpoch κ)) : Option (ℤ × ℤ) :=
  db.foldl
    (fun acc k =>
      match acc with
      | none => some (k.nbf, k.exp)
      | some (n, e) => if e < k.exp then some (k.nbf, k.exp) else some (n, e))
    none

/-- `generate_token_keys` / `generate_root_keys`: one fresh epoch per
`KEY_INTERVAL` from `start`, `1 + int((end - start)/KEY_INTERVAL)` of them,
each `exp` padded by `KEY_EXP_BUFFER`; key material drawn from the
per-epoch generator `keygen`.  `.error` is the `ValueError` for
`end ≤ start`. -/
def generateKeys {κ : Type} (keygen : Nat → κ) (start endT : ℤ) :
    Except Unit (List (FreshEpoch κ)) :=
  if ¬ start < endT then .error ()
  else .ok ((List.range (1 + ((endT - start) / KEY_INTERVAL)).toNat).map
    fun (i : Nat) =>
      { nbf := start + (i : ℤ) * KEY_INTERVAL
        exp := start + ((i : ℤ) + 1) * KEY_INTERVAL + KEY_EXP_BUFFER
        key := keygen i })

/-- `add_token_keys` / `add_root_keys`: extend the epoch family to cover up
to `end`.  `now` is the wall clock read when the table is empty; the result
is the batch committed by the single `add_all`/`commit` (`[]` when the
horizon is already covered and the function returns without writing). -/
def addKeys {κ σ : Type} (keygen : Nat → κ) (now : ℤ)
    (db : List (KeyEpoch σ)) (endT : ℤ) : Except Unit (List (FreshEpoch κ)) :=
  match lastEpoch db with
  | none => generateKeys keygen (now - (now - 0) % KEY_INTERVAL) endT
  | some (nbf, exp) =>
    if exp < endT then generateKeys keygen (nbf + KEY_INTERVAL) endT
    else .ok []

/-- An authorization request (`api.AuthorizationRequest`). -/
structure AuthorizationRequest where
  gufi : Nat
  nbf : ℤ
  exp : ℤ
  bbox : BBox
deriving DecidableEq

/-- The inner `generate_token` of `generate_authorization`: build the
payload with the window clipped to the key epoch, sign its packed form with
the epoch's conventional secret (`sign` abstracts `pks.sign` with the
deserialized secret key), and return the domain token carrying the epoch's
primary key as `kid`.  (The source stores it as a `database.Token` row whose
`value` is this token's packed form.)  `none` is a `pack` failure. -/
def generate_token {SK : Type} (sign : List Nat → SK → List Nat)
    (request : AuthorizationRequest) (key : KeyEpoch SK) : Option Token := do
  let payload : TokenPayload :=
    { gufi := request.gufi
      nbf := max request.nbf key.nbf
      exp := min request.exp key.exp
      bbox := request.bbox }
  let packed_payload ← payload.pack
  pure { payload := payload
         kid := key.pk
         signature := sign packed_payload key.key }

/-- The token list of `generate_authorization`: one token per epoch chosen
by `choose_token_keys` over `[request.nbf, request.exp)`.  `none` when key
selection or a `pack` raises. -/
def generate_authorization_tokens {SK : Type}
    (sign : List Nat → SK → List Nat) (db : List (KeyEpoch SK))
    (request : AuthorizationRequest) : Option (List Token) :=
  match chooseKeys db request.nbf request.exp with
  | .error _ => none
  | .ok keys => keys.mapM (generate_token sign request)

/-! ## The asyncio queues (`transceiver/__init__.py`, `link.py`,
`application.py`)

`asyncio.Queue(maxsize)` is full iff `0 < maxsize ∧ maxsize ≤ qsize`;
`maxsize = 0` (the default) means infinite capacity.  `put_nowait` raises
`QueueFull` on a full queue and otherwise appends. -/

structure AsyncQueue (α : Type) where
  maxsize : ℤ
  items : List α
deriving DecidableEq

/-- `asyncio.Queue.full()`. -/
def AsyncQueue.full {α : Type} (q : AsyncQueue α) : Bool :=
  decide (0 < q.maxsize) && decide (q.maxsize ≤ (q.items.length : ℤ))

/-- `asyncio.Queue.put_nowait`: `.error` is the raised `QueueFull`. -/
def AsyncQueue.putNowait {α : Type} (q : AsyncQueue α) (x : α) :
    Except Unit (AsyncQueue α) :=
  if q.full then .error ()
  else .ok { q with items := q.items ++ [x] }

/-- The queue constructed by `transceiver.start`: `Queue()` with the default
`maxsize = 0`, i.e. unbounded.  Both `receive_queue` and `transmit_queue`
are built this way. -/
def startQueue (α : Type) : AsyncQueue α := { maxsize := 0, items := [] }

/-- The offer made by `IpMulticast.Protocol.datagram_received` and by
`Baseline.produce`: `put_nowait` with `QueueFull` caught; the result is the
queue and whether the message was dropped (and logged critical). -/
def offerDropOnFull {α : Type} (q : AsyncQueue α) (x : α) :
    AsyncQueue α × Bool :=
  match q.putNowait x with
  | .ok q2 => (q2, false)
  | .error _ => (q, true)

/-! ## Conventional signature verification (`src/vista/crypto/pks.py`)

`cryptography`'s Ed25519 `verify` either returns `None` or raises
`InvalidSignature` (for any invalid or malformed signature byte string);
that call is the parameter `prim`.  The source wrapper catches
`InvalidSignature` and returns a boolean. -/

inductive Ed25519Outcome where
  | valid
  | invalidSignature
deriving DecidableEq

/-- `pks.verify`: calls the library primitive and converts the
`InvalidSignature` exception to `False`, everything else to `True`. -/
def pksVerifyWrapper {PK : Type}
    (prim : PK → List Nat → List Nat → Ed25519Outcome)
    (public_key : PK) (msg signature : List Nat) : Bool :=
  match prim public_key msg signature with
  | .valid => true
  | .invalidSignature => false

/-! ## Claim theorems -/

/-- C7: `encode_datetime_as_int` rejects datetimes before `MIN_DATETIME` and
otherwise returns `⌊(t − MIN)/Δ⌋` (FLOOR) or `⌈(t − MIN)/Δ⌉` (CEILING);
`decode_datetime_from_int i = MIN + i·Δ` exactly, with
`encode (decode i) = i` in both modes for non-negative `i`; in particular
`encode(MIN + 0.9Δ, FLOOR) = 0`, `encode(MIN + 0.9Δ, CEILING) = 1`,
`encode(MIN + Δ, FLOOR) = encode(MIN + Δ, CEILING) = 1`,
`encode(MIN + 1.1Δ, FLOOR) = 1`, `encode(MIN + 1.1Δ, CEILING) = 2`. -/
theorem C7_encode_decode_datetime :
    (∀ (t : ℤ) (r : Rounding),
      encode_datetime_as_int t r = none ↔ t < MIN_DATETIME) ∧
    (∀ t : ℤ, MIN_DATETIME ≤ t →
      encode_datetime_as_int t .floor =
        some ⌊((t - MIN_DATETIME : ℤ) : ℚ) / ((TIME_RESOLUTION : ℤ) : ℚ)⌋ ∧
      encode_datetime_as_int t .ceiling =
        some ⌈((t - MIN_DATETIME : ℤ) : ℚ) / ((TIME_RESOLUTION : ℤ) : ℚ)⌉) ∧
    (∀ i : ℤ, decode_datetime_from_int i = MIN_DATETIME + i * TIME_RESOLUTION) ∧
    (∀ i : ℤ, 0 ≤ i →
      encode_datetime_as_int (decode_datetime_from_int i) .floor = some i ∧
      encode_datetime_as_int (decode_datetime_from_int i) .ceiling = some i) ∧
    (encode_datetime_as_int (MIN_DATETIME + 450000) .floor = some 0 ∧
     encode_datetime_as_int (MIN_DATETIME + 450000) .ceiling = some 1 ∧
     encode_datetime_as_int (MIN_DATETIME + 500000) .floor = some 1 ∧
     encode_datetime_as_int (MIN_DATETIME + 500000) .ceiling = some 1 ∧
     encode_datetime_as_int (MIN_DATETIME + 550000) .floor = some 1 ∧
     encode_datetime_as_int (MIN_DATETIME + 550000) .ceiling = some 2) := by
  refine ⟨?_, ?_, ?_, ?_, ?_⟩
  · intro t r
    unfold encode_datetime_as_int
    split <;> simp [*]
  · intro t ht
    have hfloor : ⌊((t - MIN_DATETIME : ℤ) : ℚ) / ((TIME_RESOLUTION : ℤ) : ℚ)⌋
        = (t - MIN_DATETIME) / TIME_RESOLUTION := by
      have h5 : ((TIME_RESOLUTION : ℤ) : ℚ) = ((500000 : ℕ) : ℚ) := by
        norm_num [TIME_RESOLUTION]
      rw [h5, Rat.floor_intCast_div_natCast]
      norm_num [TIME_RESOLUTION]
    have hceil : ⌈((t - MIN_DATETIME : ℤ) : ℚ) / ((TIME_RESOLUTION : ℤ) : ℚ)⌉
        = -((MIN_DATETIME - t) / TIME_RESOLUTION) := by
      have hx : ((t - MIN_DATETIME : ℤ) : ℚ) / ((TIME_RESOLUTION : ℤ) : ℚ)
          = -(((MIN_DATETIME - t : ℤ) : ℚ) / ((500000 : ℕ) : ℚ)) := by
        have h5 : ((TIME_RESOLUTION : ℤ) : ℚ) = ((500000 : ℕ) : ℚ) := by
          norm_num [TIME_RESOLUTION]
        rw [h5]
        push_cast
        ring
      rw [hx, Int.ceil_neg, Rat.floor_intCast_div_natCast]
      norm_num [TIME_RESOLUTION]
    constructor
    · unfold encode_datetime_as_int
      rw [if_neg (by omega), hfloor]
      simp only [Option.some.injEq, TIME_RESOLUTION, MIN_DATETIME]
      omega
    · unfold encode_datetime_as_int
      rw [if_neg (by omega), hceil]
      simp only [Option.some.injEq, TIME_RESOLUTION, MIN_DATETIME]
      omega
  · intro i
    unfold decode_datetime_from_int
    ring
  · intro i hi
    unfold encode_datetime_as_int decode_datetime_from_int
    simp only [TIME_RESOLUTION, MIN_DATETIME]
    norm_num
    omega
  · refine ⟨by decide!, by decide!, by decide!, by decide!, by decide!,
      by decide!⟩

/-- C7 witness: the theorem's conditional parts instantiated at
`t = MIN_DATETIME + 250000` and `i = 5`. -/
theorem C7_encode_decode_datetime_witness :
    (MIN_DATETIME ≤ MIN_DATETIME + 250000 ∧
      encode_datetime_as_int (MIN_DATETIME + 250000) .floor =
        some ⌊((MIN_DATETIME + 250000 - MIN_DATETIME : ℤ) : ℚ) /
          ((TIME_RESOLUTION : ℤ) : ℚ)⌋) ∧
    ((0 : ℤ) ≤ 5 ∧
      encode_datetime_as_int (decode_datetime_from_int 5) .floor = some 5) :=
  ⟨⟨by norm_num,
    (C7_encode_decode_datetime.2.1 (MIN_DATETIME + 250000) (by norm_num)).1⟩,
   ⟨by norm_num,
    (C7_encode_decode_datetime.2.2.2.1 5 (by norm_num)).1⟩⟩

/-- Helper: `bbox_includes` on in-range coordinates returns the containment
decision. -/
theorem bbox_includes_inRange :
    ∀ (bbox : BBox) (point : ℚ × ℚ),
      |point.1| ≤ 180 → |point.2| ≤ 90 → |bbox.west| ≤ 180 →
      |bbox.south| ≤ 90 → |bbox.east| ≤ 180 → |bbox.north| ≤ 90 →
      bbox_includes bbox point =
        .ok (decide (bbox.south ≤ point.2 ∧ point.2 ≤ bbox.north ∧
          if bbox.east < bbox.west then
            bbox.west ≤ point.1 ∨ point.1 ≤ bbox.east
          else bbox.west ≤ point.1 ∧ point.1 ≤ bbox.east)) := by
  intro bbox point h1 h2 h3 h4 h5 h6
  unfold bbox_includes checkCoords
  rw [if_neg (by linarith), if_neg (by linarith)]
  simp only [Bind.bind, Except.bind, Pure.pure, Except.pure]
  rw [if_neg (by linarith), if_neg (by linarith), if_neg (by linarith),
    if_neg (by linarith)]
  simp only [Bind.bind, Except.bind]
  split_ifs with hlat hwrap hwrap
  · simp only [Except.ok.injEq]
    have : ¬ (bbox.south ≤ point.2 ∧ point.2 ≤ bbox.north ∧
        (bbox.west ≤ point.1 ∨ point.1 ≤ bbox.east)) := by
      rcases hlat with h | h
      · intro ⟨_, hb, _⟩; linarith
      · intro ⟨ha, _, _⟩; linarith
    simp [this, hwrap]
  · simp only [Except.ok.injEq]
    have : ¬ (bbox.south ≤ point.2 ∧ point.2 ≤ bbox.north ∧
        (bbox.west ≤ point.1 ∧ point.1 ≤ bbox.east)) := by
      rcases hlat with h | h
      · intro ⟨_, hb, _⟩; linarith
      · intro ⟨ha, _, _⟩; linarith
    simp [this, hwrap]
  · simp only [Except.ok.injEq]
    have hl : bbox.south ≤ point.2 ∧ point.2 ≤ bbox.north := by
      push_neg at hlat
      exact ⟨hlat.2, hlat.1⟩
    simp [hl.1, hl.2, hwrap]
  · simp only [Except.ok.injEq]
    have hl : bbox.south ≤ point.2 ∧ point.2 ≤ bbox.north := by
      push_neg at hlat
      exact ⟨hlat.2, hlat.1⟩
    simp [hl.1, hl.2, hwrap]

/-- Helper: `bbox_includes` on any out-of-range coordinate raises a
coordinate-range error. -/
theorem bbox_includes_outRange :
    ∀ (bbox : BBox) (point : ℚ × ℚ),
      ¬(|point.1| ≤ 180 ∧ |point.2| ≤ 90 ∧ |bbox.west| ≤ 180 ∧
        |bbox.south| ≤ 90 ∧ |bbox.east| ≤ 180 ∧ |bbox.north| ≤ 90) →
      bbox_includes bbox point = .error .longitudeRange ∨
      bbox_includes bbox point = .error .latitudeRange := by
  intro bbox point h
  unfold bbox_includes checkCoords
  push_neg at h
  by_cases c1 : 180 < |point.1|
  · left
    rw [if_pos c1]
    rfl
  · by_cases c2 : 90 < |point.2|
    · right
      rw [if_neg c1, if_pos c2]
      rfl
    · by_cases c3 : 180 < |bbox.west|
      · left
        rw [if_neg c1, if_neg c2]
        simp only [Bind.bind, Except.bind]
        rw [if_pos c3]
      · by_cases c4 : 90 < |bbox.south|
        · right
          rw [if_neg c1, if_neg c2]
          simp only [Bind.bind, Except.bind]
          rw [if_neg c3, if_pos c4]
        · by_cases c5 : 180 < |bbox.east|
          · left
            rw [if_neg c1, if_neg c2]
            simp only [Bind.bind, Except.bind]
            rw [if_neg c3, if_neg c4]
            simp only [Bind.bind, Except.bind]
            rw [if_pos c5]
          · have c6 : 90 < |bbox.north| := by
              push_neg at c1 c2 c3 c4 c5
              exact h c1 c2 c3 c4 c5
            right
            rw [if_neg c1, if_neg c2]
            simp only [Bind.bind, Except.bind]
            rw [if_neg c3, if_neg c4]
            simp only [Bind.bind, Except.bind]
            rw [if_neg c5, if_pos c6]


/-- C6: for in-range coordinates, `bbox_includes` returns containment
`south ≤ lat ≤ north` with longitude rule `lon ≥ west ∨ lon ≤ east` when
`east < west` (antimeridian wrap) and `west ≤ lon ≤ east` otherwise,
boundaries inclusive; whenever any coordinate of the point or either corner
is out of range it raises a longitude-range or latitude-range `ValueError`
instead of returning. -/
theorem C6_bbox_includes :
    (∀ (bbox : BBox) (point : ℚ × ℚ),
      |point.1| ≤ 180 → |point.2| ≤ 90 → |bbox.west| ≤ 180 →
      |bbox.south| ≤ 90 → |bbox.east| ≤ 180 → |bbox.north| ≤ 90 →
      bbox_includes bbox point =
        .ok (decide (bbox.south ≤ point.2 ∧ point.2 ≤ bbox.north ∧
          if bbox.east < bbox.west then
            bbox.west ≤ point.1 ∨ point.1 ≤ bbox.east
          else bbox.west ≤ point.1 ∧ point.1 ≤ bbox.east))) ∧
    (∀ (bbox : BBox) (point : ℚ × ℚ),
      ¬(|point.1| ≤ 180 ∧ |point.2| ≤ 90 ∧ |bbox.west| ≤ 180 ∧
        |bbox.south| ≤ 90 ∧ |bbox.east| ≤ 180 ∧ |bbox.north| ≤ 90) →
      bbox_includes bbox point = .error .longitudeRange ∨
      bbox_includes bbox point = .error .latitudeRange) := by
  exact ⟨bbox_includes_inRange, bbox_includes_outRange⟩

/-- C6 witness: the antimeridian box `(170, -10, -170, 10)` from the spec,
with the in-range branch applied at `(180, 0)` (contained) and `(0, 0)`
(not contained), and the error branch applied at longitude 181. -/
theorem C6_bbox_includes_witness :
    bbox_includes ⟨170, -10, -170, 10⟩ (180, 0) = .ok true ∧
    bbox_includes ⟨170, -10, -170, 10⟩ (0, 0) = .ok false ∧
    (bbox_includes ⟨-40, 30, -30, 40⟩ (181, 0) = .error .longitudeRange ∨
     bbox_includes ⟨-40, 30, -30, 40⟩ (181, 0) = .error .latitudeRange) :=
  ⟨by
    rw [C6_bbox_includes.1 ⟨170, -10, -170, 10⟩ (180, 0) (by norm_num)
      (by norm_num) (by norm_num) (by norm_num) (by norm_num) (by norm_num)]
    exact congrArg Except.ok (by decide!),
   by
    rw [C6_bbox_includes.1 ⟨170, -10, -170, 10⟩ (0, 0) (by norm_num)
      (by norm_num) (by norm_num) (by norm_num) (by norm_num) (by norm_num)]
    exact congrArg Except.ok (by decide!),
   C6_bbox_includes.2 ⟨-40, 30, -30, 40⟩ (181, 0) (by norm_num)⟩

/-- C4: key selection (`choose_token_keys` / `choose_root_keys`, both
instances of `chooseKeys`) returns exactly the epochs with
`exp > start ∧ nbf < end`, ordered ascending by `nbf`, and fails with the
no-coverage `ValueError` iff that set is empty or the last returned epoch
ends before `end`. -/
theorem C4_choose_keys (κ : Type) (db : List (KeyEpoch κ)) (start endT : ℤ) :
    (∀ keys, chooseKeys db start endT = .ok keys →
      keys.Perm (db.filter fun k =>
        decide (start < k.exp) && decide (k.nbf < endT)) ∧
      keys.Pairwise (fun a b => a.nbf ≤ b.nbf) ∧
      (∀ k, k ∈ keys ↔ k ∈ db ∧ start < k.exp ∧ k.nbf < endT) ∧
      keys ≠ [] ∧
      (∀ lastK, keys.getLast? = some lastK → endT ≤ lastK.exp)) ∧
    ((chooseKeys db start endT).isOk = false ↔
      ((db.filter fun k =>
          decide (start < k.exp) && decide (k.nbf < endT)) = [] ∨
        ∃ lastK,
          (List.insertionSort (fun a b => a.nbf ≤ b.nbf)
            (db.filter fun k =>
              decide (start < k.exp) && decide (k.nbf < endT))).getLast? =
            some lastK ∧ lastK.exp < endT)) := by
  haveI instTot : IsTotal (KeyEpoch κ) (fun a b => a.nbf ≤ b.nbf) :=
    ⟨fun a b => le_total a.nbf b.nbf⟩
  haveI instTrans : IsTrans (KeyEpoch κ) (fun a b => a.nbf ≤ b.nbf) :=
    ⟨fun a b c hab hbc => le_trans hab hbc⟩
  have hperm := List.perm_insertionSort (fun a b => a.nbf ≤ b.nbf)
    (db.filter fun k => decide (start < k.exp) && decide (k.nbf < endT))
  have hsorted := List.sorted_insertionSort (fun a b => a.nbf ≤ b.nbf)
    (db.filter fun k => decide (start < k.exp) && decide (k.nbf < endT))
  constructor
  · intro keys hok
    unfold chooseKeys at hok
    split at hok
    · exact absurd hok (by simp)
    · rename_i lastK hlast
      split at hok
      · exact absurd hok (by simp)
      · rename_i hexp
        simp only [Except.ok.injEq] at hok
        subst hok
        refine ⟨hperm, hsorted, ?_, ?_, ?_⟩
        · intro k
          rw [hperm.mem_iff, List.mem_filter]
          simp
        · intro hnil
          rw [hnil] at hlast
          simp at hlast
        · intro lk hlk
          rw [hlast] at hlk
          simp only [Option.some.injEq] at hlk
          subst hlk
          omega
  · unfold chooseKeys
    cases hlast : (List.insertionSort (fun a b => a.nbf ≤ b.nbf)
      (db.filter fun k =>
        decide (start < k.exp) && decide (k.nbf < endT))).getLast? with
    | none =>
      dsimp only
      constructor
      · intro _
        left
        have hsnil : List.insertionSort (fun a b => a.nbf ≤ b.nbf)
            (db.filter fun k =>
              decide (start < k.exp) && decide (k.nbf < endT)) = [] := by
          rwa [List.getLast?_eq_none_iff] at hlast
        rw [hsnil] at hperm
        exact hperm.symm.eq_nil
      · intro _
        rfl
    | some lastK =>
      dsimp only
      split
      · rename_i hexp
        constructor
        · intro _
          right
          exact ⟨lastK, rfl, hexp⟩
        · intro _
          rfl
      · rename_i hexp
        constructor
        · intro h
          simp [Except.isOk, Except.toBool] at h
        · intro h
          rcases h with h | ⟨lk, hlk, hlkexp⟩
          · rw [h] at hlast
            simp [List.insertionSort] at hlast
          · simp only [Option.some.injEq] at hlk
            subst hlk
            omega

/-- Concrete epochs for the C4 witness. -/
def cEpochA : KeyEpoch Unit := { pk := 1, nbf := 0, exp := 10, key := () }

def cEpochB : KeyEpoch Unit := { pk := 2, nbf := 5, exp := 20, key := () }

def cChooseDb : List (KeyEpoch Unit) := [cEpochB, cEpochA]

/-- C4 witness: a two-epoch table over the window `[3, 15)`; both epochs
are selected in `nbf` order and the selection succeeds. -/
theorem C4_choose_keys_witness :
    chooseKeys cChooseDb 3 15 = Except.ok [cEpochA, cEpochB] ∧
    [cEpochA, cEpochB].Perm (cChooseDb.filter fun k =>
      decide ((3:ℤ) < k.exp) && decide (k.nbf < (15:ℤ))) ∧
    (15 : ℤ) ≤ cEpochB.exp :=
  ⟨by decide!,
   ((C4_choose_keys Unit cChooseDb 3 15).1 [cEpochA, cEpochB] (by decide!)).1,
   ((C4_choose_keys Unit cChooseDb 3 15).1 [cEpochA, cEpochB]
     (by decide!)).2.2.2.2 cEpochB (by decide!)⟩

/-- Helper: what `generate_token_keys` / `generate_root_keys` produce — one
epoch per `KEY_INTERVAL` from `start`, `1 + ⌊(end − start)/KEY_INTERVAL⌋` of
them. -/
theorem generateKeys_spec {κ : Type} (keygen : Nat → κ) (start endT : ℤ) :
    (start < endT → ∃ batch, generateKeys keygen start endT = .ok batch ∧
      batch.length = ((endT - start) / KEY_INTERVAL).toNat + 1 ∧
      ∀ i : Nat, i < batch.length →
        batch[i]? = some
          { nbf := start + (i : ℤ) * KEY_INTERVAL
            exp := start + ((i : ℤ) + 1) * KEY_INTERVAL + KEY_EXP_BUFFER
            key := keygen i }) ∧
    (¬ start < endT → generateKeys keygen start endT = .error ()) := by
  constructor
  · intro hlt
    refine ⟨(List.range (1 + ((endT - start) / KEY_INTERVAL)).toNat).map
      (fun (i : Nat) =>
        { nbf := start + (i : ℤ) * KEY_INTERVAL
          exp := start + ((i : ℤ) + 1) * KEY_INTERVAL + KEY_EXP_BUFFER
          key := keygen i }), ?_, ?_, ?_⟩
    · unfold generateKeys
      rw [if_neg (by omega)]
    · simp only [List.length_map, List.length_range, KEY_INTERVAL]
      norm_num
      omega
    · intro i hi
      simp only [List.length_map, List.length_range] at hi
      simp [List.getElem?_map, List.getElem?_range, hi]
  · intro hge
    unfold generateKeys
    rw [if_pos hge]

/-- C5 (amended): `add_token_keys` / `add_root_keys` anchor at the wall
clock quantized down to `KEY_INTERVAL` when no epoch exists and at
`last.nbf + KEY_INTERVAL` when the latest epoch ends before the horizon; in
either case exactly `⌊(horizon − anchor)/KEY_INTERVAL⌋ + 1` fresh epochs are
generated (the code truncates, it does not round up), the `i`-th with
`nbf = anchor + i·KEY_INTERVAL` and `exp = nbf + KEY_INTERVAL +
KEY_EXP_BUFFER`, committed as one batch; nothing is generated when the
latest epoch already covers the horizon. -/
theorem C5_add_epochs (κ σ : Type) (keygen : Nat → κ) (now : ℤ)
    (db : List (KeyEpoch σ)) (endT : ℤ) :
    (lastEpoch db = none →
      (now - now % KEY_INTERVAL < endT →
        ∃ batch, addKeys keygen now db endT = .ok batch ∧
          batch.length =
            ((endT - (now - now % KEY_INTERVAL)) / KEY_INTERVAL).toNat + 1 ∧
          ∀ i : Nat, i < batch.length →
            batch[i]? = some
              { nbf := (now - now % KEY_INTERVAL) + (i : ℤ) * KEY_INTERVAL
                exp := (now - now % KEY_INTERVAL) + ((i : ℤ) + 1) * KEY_INTERVAL
                  + KEY_EXP_BUFFER
                key := keygen i }) ∧
      (¬ now - now % KEY_INTERVAL < endT →
        addKeys keygen now db endT = .error ())) ∧
    (∀ lnbf lexp, lastEpoch db = some (lnbf, lexp) →
      (lexp < endT →
        (lnbf + KEY_INTERVAL < endT →
          ∃ batch, addKeys keygen now db endT = .ok batch ∧
            batch.length =
              ((endT - (lnbf + KEY_INTERVAL)) / KEY_INTERVAL).toNat + 1 ∧
            ∀ i : Nat, i < batch.length →
              batch[i]? = some
                { nbf := (lnbf + KEY_INTERVAL) + (i : ℤ) * KEY_INTERVAL
                  exp := (lnbf + KEY_INTERVAL) + ((i : ℤ) + 1) * KEY_INTERVAL
                    + KEY_EXP_BUFFER
                  key := keygen i }) ∧
        (¬ lnbf + KEY_INTERVAL < endT →
          addKeys keygen now db endT = .error ())) ∧
      (¬ lexp < endT → addKeys keygen now db endT = .ok [])) := by
  constructor
  · intro hnone
    have hadd : addKeys keygen now db endT
        = generateKeys keygen (now - now % KEY_INTERVAL) endT := by
      unfold addKeys
      rw [hnone]
      norm_num
    rw [hadd]
    exact generateKeys_spec keygen (now - now % KEY_INTERVAL) endT
  · intro lnbf lexp hsome
    constructor
    · intro hlt
      have hadd : addKeys keygen now db endT
          = generateKeys keygen (lnbf + KEY_INTERVAL) endT := by
        unfold addKeys
        rw [hsome]
        dsimp only
        rw [if_pos hlt]
      rw [hadd]
      exact generateKeys_spec keygen (lnbf + KEY_INTERVAL) endT
    · intro hge
      unfold addKeys
      rw [hsome]
      dsimp only
      rw [if_neg hge]

/-- C5 counterexample: with one epoch `(nbf 0, exp KEY_INTERVAL + buffer)`
and horizon one microsecond past its expiry, the code generates one fresh
epoch, while the claimed count `⌈(horizon − anchor)/KEY_INTERVAL⌉ + 1` is
two. -/
theorem C5_add_epochs_counterexample :
    addKeys (fun _ => ()) 0
        [{ pk := 1, nbf := 0, exp := 300500000, key := () }] 300500001 =
      Except.ok [({ nbf := 300000000, exp := 600500000, key := () }
        : FreshEpoch Unit)] ∧
    ⌈((300500001 - 300000000 : ℤ) : ℚ) / ((KEY_INTERVAL : ℤ) : ℚ)⌉ + 1 = 2 ∧
    (1 : ℕ) ≠ 2 := by
  refine ⟨by decide!, ?_, by norm_num⟩
  have hq : ((300500001 - 300000000 : ℤ) : ℚ) / ((KEY_INTERVAL : ℤ) : ℚ)
      = 500001 / 300000000 := by
    norm_num [KEY_INTERVAL]
  rw [hq]
  have hc : ⌈(500001 / 300000000 : ℚ)⌉ = 1 := by
    rw [Int.ceil_eq_iff]
    constructor <;> norm_num
  rw [hc]
  norm_num

/-- C5 witness: on an empty table with `now = 0` and horizon one
`KEY_INTERVAL`, the extension succeeds; evaluating the call shows the two
epochs the amended count predicts. -/
theorem C5_add_epochs_witness :
    lastEpoch ([] : List (KeyEpoch Unit)) = none ∧
    (0 - 0 % KEY_INTERVAL : ℤ) < KEY_INTERVAL ∧
    (addKeys (fun _ => ()) 0 ([] : List (KeyEpoch Unit))
      KEY_INTERVAL).isOk = true ∧
    addKeys (fun _ => ()) 0 ([] : List (KeyEpoch Unit)) KEY_INTERVAL =
      Except.ok [({ nbf := 0, exp := 300500000, key := () } : FreshEpoch Unit),
        { nbf := 300000000, exp := 600500000, key := () }] := by
  refine ⟨by decide!, by decide!, ?_, by decide!⟩
  obtain ⟨batch, hb, -, -⟩ :=
    (((C5_add_epochs Unit Unit (fun _ => ()) 0 [] KEY_INTERVAL).1
      (by decide!)).1) (by decide!)
  rw [hb]
  rfl

/-- Helper: a successful `Option`-`mapM` maps members to members. -/
theorem mapM_option_mem {α β : Type} (f : α → Option β) :
    ∀ (l : List α) (l2 : List β), l.mapM f = some l2 →
      ∀ b ∈ l2, ∃ a ∈ l, f a = some b := by
  intro l
  induction l with
  | nil =>
    intro l2 h b hb
    simp only [List.mapM_nil, Option.pure_def, Option.some.injEq] at h
    subst h
    simp at hb
  | cons a l ih =>
    intro l2 h b hb
    rw [List.mapM_cons] at h
    cases hfa : f a with
    | none => rw [hfa] at h; simp at h
    | some fa =>
      rw [hfa] at h
      cases hrest : l.mapM f with
      | none => rw [hrest] at h; simp at h
      | some rest =>
        rw [hrest] at h
        simp only [Option.pure_def, Option.bind_eq_bind, Option.some_bind,
          Option.some.injEq] at h
        subst h
        rcases List.mem_cons.mp hb with hb | hb
        · exact ⟨a, List.mem_cons_self a l, by rw [hfa, hb]⟩
        · obtain ⟨a2, ha2, hfa2⟩ := ih rest hrest b hb
          exact ⟨a2, List.mem_cons_of_mem a ha2, hfa2⟩

/-- C3: every token minted by `generate_authorization` under request `A` and
a selected token-key epoch `k` has `payload.nbf = max(A.nbf, k.nbf)`,
`payload.exp = min(A.exp, k.exp)`, carries `A`'s gufi and bbox, has `kid =
k.pk`, and its signature is the conventional signature of the packed payload
under `k`'s secret key; and every token in the authorization's token list
arises this way from an epoch chosen by `choose_token_keys`. -/
theorem C3_generate_token :
    (∀ (SK : Type) (sign : List Nat → SK → List Nat)
        (request : AuthorizationRequest) (key : KeyEpoch SK) (t : Token),
      generate_token sign request key = some t →
        t.payload.nbf = max request.nbf key.nbf ∧
        t.payload.exp = min request.exp key.exp ∧
        t.payload.gufi = request.gufi ∧
        t.payload.bbox = request.bbox ∧
        t.kid = key.pk ∧
        ∃ pb, t.payload.pack = some pb ∧ t.signature = sign pb key.key) ∧
    (∀ (SK : Type) (sign : List Nat → SK → List Nat) (db : List (KeyEpoch SK))
        (request : AuthorizationRequest) (tokens : List Token),
      generate_authorization_tokens sign db request = some tokens →
        ∃ keys, chooseKeys db request.nbf request.exp = .ok keys ∧
          ∀ t ∈ tokens, ∃ key ∈ keys,
            generate_token sign request key = some t) := by
  constructor
  · intro SK sign request key t hgen
    unfold generate_token at hgen
    dsimp only at hgen
    cases hp : TokenPayload.pack
        { gufi := request.gufi
          nbf := max request.nbf key.nbf
          exp := min request.exp key.exp
          bbox := request.bbox } with
    | none =>
      rw [hp] at hgen
      simp at hgen
    | some pb =>
      rw [hp] at hgen
      simp only [Option.bind_eq_bind, Option.some_bind, Option.pure_def,
        Option.some.injEq] at hgen
      subst hgen
      exact ⟨rfl, rfl, rfl, rfl, rfl, pb, hp, rfl⟩
  · intro SK sign db request tokens hgen
    unfold generate_authorization_tokens at hgen
    cases hchoose : chooseKeys db request.nbf request.exp with
    | error e =>
      rw [hchoose] at hgen
      simp at hgen
    | ok keys =>
      rw [hchoose] at hgen
      refine ⟨keys, rfl, ?_⟩
      intro t ht
      obtain ⟨key, hkey, hsig⟩ :=
        mapM_option_mem (generate_token sign request) keys tokens hgen t ht
      exact ⟨key, hkey, hsig⟩

/-- Concrete request, epoch and token for the C3 witness. -/
def cRequest : AuthorizationRequest :=
  { gufi := 2 ^ 78 + 2 ^ 63
    nbf := MIN_DATETIME
    exp := MIN_DATETIME + 500000
    bbox := ⟨-72, 41, -70, 43⟩ }

def cKeyEpoch : KeyEpoch Unit :=
  { pk := 4, nbf := MIN_DATETIME, exp := MIN_DATETIME + 1000000000, key := () }

def cSign : List Nat → Unit → List Nat := fun _ _ => List.replicate 64 1

def cMintedToken : Token :=
  { payload :=
      { gufi := 2 ^ 78 + 2 ^ 63
        nbf := MIN_DATETIME
        exp := MIN_DATETIME + 500000
        bbox := ⟨-72, 41, -70, 43⟩ }
    kid := 4
    signature := List.replicate 64 1 }

/-- C3 witness: minting under `cRequest` with epoch `cKeyEpoch` succeeds and
the theorem's clauses hold for the minted token. -/
theorem C3_generate_token_witness :
    generate_token cSign cRequest cKeyEpoch = some cMintedToken ∧
    generate_authorization_tokens cSign [cKeyEpoch] cRequest =
      some [cMintedToken] ∧
    cMintedToken.payload.nbf = max cRequest.nbf cKeyEpoch.nbf ∧
    cMintedToken.payload.exp = min cRequest.exp cKeyEpoch.exp ∧
    cMintedToken.payload.gufi = cRequest.gufi ∧
    cMintedToken.payload.bbox = cRequest.bbox ∧
    cMintedToken.kid = cKeyEpoch.pk :=
  ⟨by decide!, by decide!,
   (C3_generate_token.1 Unit cSign cRequest cKeyEpoch cMintedToken
     (by decide!)).1,
   (C3_generate_token.1 Unit cSign cRequest cKeyEpoch cMintedToken
     (by decide!)).2.1,
   (C3_generate_token.1 Unit cSign cRequest cKeyEpoch cMintedToken
     (by decide!)).2.2.1,
   (C3_generate_token.1 Unit cSign cRequest cKeyEpoch cMintedToken
     (by decide!)).2.2.2.1,
   (C3_generate_token.1 Unit cSign cRequest cKeyEpoch cMintedToken
     (by decide!)).2.2.2.2.1⟩

/-! ## Round-trip lemmas for the wire codec (claim C2) -/
/-- Floor of a datetime to the tick grid. -/
def tickFloor (t : ℤ) : ℤ :=
  MIN_DATETIME + (t - MIN_DATETIME) / TIME_RESOLUTION * TIME_RESOLUTION

/-- Ceiling of a datetime to the tick grid. -/
def tickCeil (t : ℤ) : ℤ :=
  MIN_DATETIME - (MIN_DATETIME - t) / TIME_RESOLUTION * TIME_RESOLUTION

theorem encode_floor_spec (t c : ℤ)
    (h : encode_datetime_as_int t .floor = some c) :
    MIN_DATETIME ≤ t ∧ 0 ≤ c ∧ decode_datetime_from_int c = tickFloor t := by
  unfold encode_datetime_as_int at h
  split at h
  · simp at h
  · dsimp only at h
    simp only [Option.some.injEq] at h
    subst h
    unfold decode_datetime_from_int tickFloor
    simp only [MIN_DATETIME, TIME_RESOLUTION] at *
    norm_num at *
    refine ⟨by omega, by omega, by omega⟩

theorem encode_ceiling_spec (t c : ℤ)
    (h : encode_datetime_as_int t .ceiling = some c) :
    MIN_DATETIME ≤ t ∧ 0 ≤ c ∧ decode_datetime_from_int c = tickCeil t := by
  unfold encode_datetime_as_int at h
  split at h
  · simp at h
  · dsimp only at h
    simp only [Option.some.injEq] at h
    subst h
    unfold decode_datetime_from_int tickCeil
    simp only [MIN_DATETIME, TIME_RESOLUTION] at *
    norm_num at *
    refine ⟨by omega, by omega, by omega⟩

theorem tokenPayload_pack_spec (p : TokenPayload) (bytes : List Nat)
    (hp : p.pack = some bytes) :
    ∃ cn ce ww ws we wn,
      encode_datetime_as_int p.nbf .floor = some cn ∧
      encode_datetime_as_int p.exp .ceiling = some ce ∧
      (0:ℤ) ≤ cn ∧ cn < 2 ^ 32 ∧ (0:ℤ) ≤ ce ∧ ce < 2 ^ 32 ∧
      f32enc? p.bbox.west = some ww ∧ f32enc? p.bbox.south = some ws ∧
      f32enc? p.bbox.east = some we ∧ f32enc? p.bbox.north = some wn ∧
      bytes = toBytesBE 16 p.gufi ++ (toBytesBE 4 cn.toNat ++
        (toBytesBE 4 ce.toNat ++ (toBytesBE 4 ww ++ (toBytesBE 4 ws ++
        (toBytesBE 4 we ++ toBytesBE 4 wn))))) := by
  unfold TokenPayload.pack at hp
  cases hcn : encode_datetime_as_int p.nbf .floor with
  | none => rw [hcn] at hp; simp at hp
  | some cn =>
  rw [hcn] at hp
  cases hce : encode_datetime_as_int p.exp .ceiling with
  | none => rw [hce] at hp; simp at hp
  | some ce =>
  rw [hce] at hp
  simp only [Option.bind_eq_bind, Option.some_bind] at hp
  split at hp
  case isFalse => simp at hp
  case isTrue hrange =>
  cases hww : f32enc? p.bbox.west with
  | none => rw [hww] at hp; simp at hp
  | some ww =>
  rw [hww] at hp
  cases hws : f32enc? p.bbox.south with
  | none => rw [hws] at hp; simp at hp
  | some ws =>
  rw [hws] at hp
  cases hwe : f32enc? p.bbox.east with
  | none => rw [hwe] at hp; simp at hp
  | some we =>
  rw [hwe] at hp
  cases hwn : f32enc? p.bbox.north with
  | none => rw [hwn] at hp; simp at hp
  | some wn =>
  rw [hwn] at hp
  simp only [Option.bind_eq_bind, Option.some_bind, Option.pure_def,
    Option.some.injEq] at hp
  refine ⟨cn, ce, ww, ws, we, wn, rfl, rfl,
    (encode_floor_spec _ _ hcn).2.1, hrange.1,
    (encode_ceiling_spec _ _ hce).2.1, hrange.2, rfl, rfl, rfl, rfl, ?_⟩
  rw [← hp]
  simp [List.append_assoc]

theorem tokenPayload_unpack_pack (p : TokenPayload) (bytes : List Nat)
    (hg : p.gufi < 2 ^ 128) (hu : isUUID4 p.gufi = true)
    (hbw : IsF32 p.bbox.west = true) (hbs : IsF32 p.bbox.south = true)
    (hbe : IsF32 p.bbox.east = true) (hbn : IsF32 p.bbox.north = true)
    (hp : p.pack = some bytes) :
    TokenPayload.unpack bytes =
      some { p with nbf := tickFloor p.nbf, exp := tickCeil p.exp } := by
  obtain ⟨cn, ce, ww, ws, we, wn, hcn, hce, hcn0, hcn32, hce0, hce32,
    hww, hws, hwe, hwn, hbytes⟩ := tokenPayload_pack_spec p bytes hp
  obtain ⟨ww2, hww2, hwwlt, hwwdec⟩ := IsF32_spec _ hbw
  obtain ⟨ws2, hws2, hwslt, hwsdec⟩ := IsF32_spec _ hbs
  obtain ⟨we2, hwe2, hwelt, hwedec⟩ := IsF32_spec _ hbe
  obtain ⟨wn2, hwn2, hwnlt, hwndec⟩ := IsF32_spec _ hbn
  rw [hww] at hww2
  rw [hws] at hws2
  rw [hwe] at hwe2
  rw [hwn] at hwn2
  simp only [Option.some.injEq] at hww2 hws2 hwe2 hwn2
  subst hww2
  subst hws2
  subst hwe2
  subst hwn2
  subst hbytes
  unfold TokenPayload.unpack
  have hlen : (toBytesBE 16 p.gufi ++ (toBytesBE 4 cn.toNat ++
      (toBytesBE 4 ce.toNat ++ (toBytesBE 4 ww ++ (toBytesBE 4 ws ++
      (toBytesBE 4 we ++ toBytesBE 4 wn)))))).length = 40 := by
    simp [toBytesBE_length]
  rw [if_pos hlen]
  dsimp only
  rw [List.take_left' (toBytesBE_length 16 p.gufi),
    List.drop_left' (toBytesBE_length 16 p.gufi),
    List.take_left' (toBytesBE_length 4 cn.toNat),
    List.drop_left' (toBytesBE_length 4 cn.toNat),
    List.take_left' (toBytesBE_length 4 ce.toNat),
    List.drop_left' (toBytesBE_length 4 ce.toNat),
    List.take_left' (toBytesBE_length 4 ww),
    List.drop_left' (toBytesBE_length 4 ww),
    List.take_left' (toBytesBE_length 4 ws),
    List.drop_left' (toBytesBE_length 4 ws),
    List.take_left' (toBytesBE_length 4 we),
    List.drop_left' (toBytesBE_length 4 we)]
  have h2128 : (256:ℕ) ^ 16 = 2 ^ 128 := by norm_num
  have h232 : (256:ℕ) ^ 4 = 2 ^ 32 := by norm_num
  rw [fromBytesBE_toBytesBE 16 p.gufi (by rw [h2128]; exact hg)]
  rw [fromBytesBE_toBytesBE 4 cn.toNat (by rw [h232]; omega)]
  rw [fromBytesBE_toBytesBE 4 ce.toNat (by rw [h232]; omega)]
  rw [List.take_of_length_le (le_of_eq (toBytesBE_length 4 wn)),
    fromBytesBE_toBytesBE 4 ww (by rw [h232]; exact hwwlt),
    fromBytesBE_toBytesBE 4 ws (by rw [h232]; exact hwslt),
    fromBytesBE_toBytesBE 4 we (by rw [h232]; exact hwelt),
    fromBytesBE_toBytesBE 4 wn (by rw [h232]; exact hwnlt)]
  rw [if_pos hu]
  have hdn : decode_datetime_from_int (cn.toNat : ℤ) = tickFloor p.nbf := by
    rw [Int.toNat_of_nonneg hcn0]
    exact (encode_floor_spec _ _ hcn).2.2
  have hde : decode_datetime_from_int (ce.toNat : ℤ) = tickCeil p.exp := by
    rw [Int.toNat_of_nonneg hce0]
    exact (encode_ceiling_spec _ _ hce).2.2
  rw [hdn, hde, hwwdec, hwsdec, hwedec, hwndec]

theorem tokenPayload_pack_length (p : TokenPayload) (bytes : List Nat)
    (hp : p.pack = some bytes) : bytes.length = 40 := by
  obtain ⟨cn, ce, ww, ws, we, wn, -, -, -, -, -, -, -, -, -, -, hbytes⟩ :=
    tokenPayload_pack_spec p bytes hp
  subst hbytes
  simp [toBytesBE_length]

theorem tokenPayload_pack_bytes_lt (p : TokenPayload) (bytes : List Nat)
    (hp : p.pack = some bytes) : ∀ b ∈ bytes, b < 256 := by
  obtain ⟨cn, ce, ww, ws, we, wn, -, -, -, -, -, -, -, -, -, -, hbytes⟩ :=
    tokenPayload_pack_spec p bytes hp
  subst hbytes
  intro b hb
  simp only [List.mem_append] at hb
  rcases hb with h | h | h | h | h | h | h <;>
    exact toBytesBE_bytes_lt _ _ b h

theorem token_pack_spec (t : Token) (bytes : List Nat)
    (ht : t.pack = some bytes) :
    ∃ pb, t.payload.pack = some pb ∧ t.kid < 2 ^ 32 ∧
      bytes = pb ++ (toBytesBE 4 t.kid ++ sPad 64 t.signature) := by
  unfold Token.pack at ht
  cases hpb : t.payload.pack with
  | none => rw [hpb] at ht; simp at ht
  | some pb =>
  rw [hpb] at ht
  simp only [Option.bind_eq_bind, Option.some_bind] at ht
  split at ht
  case isFalse => simp at ht
  case isTrue hkid =>
  simp only [Option.pure_def, Option.some.injEq] at ht
  refine ⟨pb, rfl, hkid, ?_⟩
  rw [← ht, sPad_of_length 40 pb (tokenPayload_pack_length t.payload pb hpb),
    List.append_assoc]

theorem token_pack_length (t : Token) (bytes : List Nat)
    (hsig : t.signature.length = 64) (ht : t.pack = some bytes) :
    bytes.length = 108 := by
  obtain ⟨pb, hpb, -, hbytes⟩ := token_pack_spec t bytes ht
  subst hbytes
  simp [toBytesBE_length, tokenPayload_pack_length t.payload pb hpb,
    sPad_of_length 64 t.signature hsig, hsig]

theorem token_pack_bytes_lt (t : Token) (bytes : List Nat)
    (hsig : ∀ b ∈ t.signature, b < 256) (ht : t.pack = some bytes) :
    ∀ b ∈ bytes, b < 256 := by
  obtain ⟨pb, hpb, -, hbytes⟩ := token_pack_spec t bytes ht
  subst hbytes
  intro b hb
  simp only [List.mem_append] at hb
  rcases hb with h | h | h
  · exact tokenPayload_pack_bytes_lt t.payload pb hpb b h
  · exact toBytesBE_bytes_lt _ _ b h
  · unfold sPad at h
    simp only [List.mem_append] at h
    rcases h with h | h
    · exact hsig b (List.mem_of_mem_take h)
    · rw [List.eq_of_mem_replicate h]
      norm_num

theorem token_unpack_pack (t : Token) (bytes : List Nat)
    (hg : t.payload.gufi < 2 ^ 128) (hu : isUUID4 t.payload.gufi = true)
    (hbw : IsF32 t.payload.bbox.west = true)
    (hbs : IsF32 t.payload.bbox.south = true)
    (hbe : IsF32 t.payload.bbox.east = true)
    (hbn : IsF32 t.payload.bbox.north = true)
    (hsig : t.signature.length = 64)
    (ht : t.pack = some bytes) :
    Token.unpack bytes = some
      { t with payload :=
          { t.payload with
              nbf := tickFloor t.payload.nbf
              exp := tickCeil t.payload.exp } } := by
  obtain ⟨pb, hpb, hkid, hbytes⟩ := token_pack_spec t bytes ht
  have hpblen : pb.length = 40 := tokenPayload_pack_length t.payload pb hpb
  rw [sPad_of_length 64 t.signature hsig] at hbytes
  subst hbytes
  unfold Token.unpack
  have hlen : (pb ++ (toBytesBE 4 t.kid ++ t.signature)).length = 108 := by
    simp [toBytesBE_length, hpblen, hsig]
  rw [if_pos hlen]
  rw [List.take_left' hpblen, List.drop_left' hpblen]
  rw [tokenPayload_unpack_pack t.payload pb hg hu hbw hbs hbe hbn hpb]
  simp only [Option.bind_eq_bind, Option.some_bind]
  rw [List.take_left' (toBytesBE_length 4 t.kid),
    List.drop_left' (toBytesBE_length 4 t.kid)]
  rw [fromBytesBE_toBytesBE 4 t.kid (by norm_num at hkid ⊢; omega)]
  rfl

theorem stateUpdate_pack_spec (s : StateUpdate) (bytes : List Nat)
    (hs : s.pack = some bytes) :
    ∃ w1 w2 w3 w4 w5 w6 w7,
      f32enc? s.lat_deg = some w1 ∧ f32enc? s.lon_deg = some w2 ∧
      f32enc? s.alt_hae_ft = some w3 ∧ f32enc? s.vel_ew_fps = some w4 ∧
      f32enc? s.vel_ns_fps = some w5 ∧ f32enc? s.vel_vert_fps = some w6 ∧
      f32enc? s.toa_utc = some w7 ∧
      bytes = toBytesBE 4 w1 ++ (toBytesBE 4 w2 ++ (toBytesBE 4 w3 ++
        (toBytesBE 4 w4 ++ (toBytesBE 4 w5 ++ (toBytesBE 4 w6 ++
        toBytesBE 4 w7))))) := by
  unfold StateUpdate.pack at hs
  cases h1 : f32enc? s.lat_deg with
  | none => rw [h1] at hs; simp at hs
  | some w1 =>
  rw [h1] at hs
  cases h2 : f32enc? s.lon_deg with
  | none => rw [h2] at hs; simp at hs
  | some w2 =>
  rw [h2] at hs
  cases h3 : f32enc? s.alt_hae_ft with
  | none => rw [h3] at hs; simp at hs
  | some w3 =>
  rw [h3] at hs
  cases h4 : f32enc? s.vel_ew_fps with
  | none => rw [h4] at hs; simp at hs
  | some w4 =>
  rw [h4] at hs
  cases h5 : f32enc? s.vel_ns_fps with
  | none => rw [h5] at hs; simp at hs
  | some w5 =>
  rw [h5] at hs
  cases h6 : f32enc? s.vel_vert_fps with
  | none => rw [h6] at hs; simp at hs
  | some w6 =>
  rw [h6] at hs
  cases h7 : f32enc? s.toa_utc with
  | none => rw [h7] at hs; simp at hs
  | some w7 =>
  rw [h7] at hs
  simp only [Option.bind_eq_bind, Option.some_bind, Option.pure_def,
    Option.some.injEq] at hs
  refine ⟨w1, w2, w3, w4, w5, w6, w7, rfl, rfl, rfl, rfl, rfl, rfl, rfl, ?_⟩
  rw [← hs]
  simp [List.append_assoc]

theorem stateUpdate_pack_length (s : StateUpdate) (bytes : List Nat)
    (hs : s.pack = some bytes) : bytes.length = 28 := by
  obtain ⟨w1, w2, w3, w4, w5, w6, w7, -, -, -, -, -, -, -, hbytes⟩ :=
    stateUpdate_pack_spec s bytes hs
  subst hbytes
  simp [toBytesBE_length]

theorem stateUpdate_unpack_pack (s : StateUpdate) (bytes : List Nat)
    (h1 : IsF32 s.lat_deg = true) (h2 : IsF32 s.lon_deg = true)
    (h3 : IsF32 s.alt_hae_ft = true) (h4 : IsF32 s.vel_ew_fps = true)
    (h5 : IsF32 s.vel_ns_fps = true) (h6 : IsF32 s.vel_vert_fps = true)
    (h7 : IsF32 s.toa_utc = true) (hs : s.pack = some bytes) :
    StateUpdate.unpack bytes = some s := by
  obtain ⟨w1, w2, w3, w4, w5, w6, w7, e1, e2, e3, e4, e5, e6, e7, hbytes⟩ :=
    stateUpdate_pack_spec s bytes hs
  obtain ⟨v1, f1, b1, d1⟩ := IsF32_spec _ h1
  obtain ⟨v2, f2, b2, d2⟩ := IsF32_spec _ h2
  obtain ⟨v3, f3, b3, d3⟩ := IsF32_spec _ h3
  obtain ⟨v4, f4, b4, d4⟩ := IsF32_spec _ h4
  obtain ⟨v5, f5, b5, d5⟩ := IsF32_spec _ h5
  obtain ⟨v6, f6, b6, d6⟩ := IsF32_spec _ h6
  obtain ⟨v7, f7, b7, d7⟩ := IsF32_spec _ h7
  rw [e1] at f1
  rw [e2] at f2
  rw [e3] at f3
  rw [e4] at f4
  rw [e5] at f5
  rw [e6] at f6
  rw [e7] at f7
  simp only [Option.some.injEq] at f1 f2 f3 f4 f5 f6 f7
  subst f1
  subst f2
  subst f3
  subst f4
  subst f5
  subst f6
  subst f7
  subst hbytes
  unfold StateUpdate.unpack
  rw [if_pos (by simp [toBytesBE_length])]
  dsimp only
  rw [List.take_left' (toBytesBE_length 4 w1),
    List.drop_left' (toBytesBE_length 4 w1)]
  rw [List.take_left' (toBytesBE_length 4 w2),
    List.drop_left' (toBytesBE_length 4 w2)]
  rw [List.take_left' (toBytesBE_length 4 w3),
    List.drop_left' (toBytesBE_length 4 w3)]
  rw [List.take_left' (toBytesBE_length 4 w4),
    List.drop_left' (toBytesBE_length 4 w4)]
  rw [List.take_left' (toBytesBE_length 4 w5),
    List.drop_left' (toBytesBE_length 4 w5)]
  rw [List.take_left' (toBytesBE_length 4 w6),
    List.drop_left' (toBytesBE_length 4 w6)]
  rw [List.take_of_length_le (le_of_eq (toBytesBE_length 4 w7))]
  rw [fromBytesBE_toBytesBE 4 w1 (by norm_num; omega),
    fromBytesBE_toBytesBE 4 w2 (by norm_num; omega),
    fromBytesBE_toBytesBE 4 w3 (by norm_num; omega),
    fromBytesBE_toBytesBE 4 w4 (by norm_num; omega),
    fromBytesBE_toBytesBE 4 w5 (by norm_num; omega),
    fromBytesBE_toBytesBE 4 w6 (by norm_num; omega),
    fromBytesBE_toBytesBE 4 w7 (by norm_num; omega)]
  rw [d1, d2, d3, d4, d5, d6, d7]

/-- Well-formedness of a serialized IBS signature component: the 2-byte
scheme prefix `1:` followed by the canonical base64 of 21 raw bytes. -/
def IbsComponentWF (comp : List Nat) : Prop :=
  ∃ r, comp = 49 :: 58 :: b64encode r ∧ r.length = 21 ∧ ∀ b ∈ r, b < 256

theorem message_pack_spec (m : Message) (bytes : List Nat)
    (hm : m.pack = some bytes) :
    ∃ tb pb r1 r2 r3,
      m.token.pack = some tb ∧ m.payload.pack = some pb ∧
      b64decode (m.signature.S1.drop 2) = some r1 ∧
      b64decode (m.signature.S2.drop 2) = some r2 ∧
      b64decode (m.signature.S3.drop 2) = some r3 ∧
      m.kid < 2 ^ 32 ∧
      bytes = sPad 108 tb ++ (toBytesBE 4 m.kid ++ (sPad 28 pb ++
        (sPad 21 r1 ++ (sPad 21 r2 ++ sPad 21 r3)))) := by
  unfold Message.pack at hm
  cases htb : m.token.pack with
  | none => rw [htb] at hm; simp at hm
  | some tb =>
  rw [htb] at hm
  cases hpb : m.payload.pack with
  | none => rw [hpb] at hm; simp at hm
  | some pb =>
  rw [hpb] at hm
  cases h1 : b64decode (m.signature.S1.drop 2) with
  | none => rw [h1] at hm; simp at hm
  | some r1 =>
  rw [h1] at hm
  cases h2 : b64decode (m.signature.S2.drop 2) with
  | none => rw [h2] at hm; simp at hm
  | some r2 =>
  rw [h2] at hm
  cases h3 : b64decode (m.signature.S3.drop 2) with
  | none => rw [h3] at hm; simp at hm
  | some r3 =>
  rw [h3] at hm
  simp only [Option.bind_eq_bind, Option.some_bind] at hm
  split at hm
  case isFalse => simp at hm
  case isTrue hkid =>
  simp only [Option.pure_def, Option.some.injEq] at hm
  exact ⟨tb, pb, r1, r2, r3, rfl, rfl, rfl, rfl, rfl, hkid,
    by rw [← hm]; simp [List.append_assoc]⟩

theorem message_unpack_pack (m : Message) (bytes : List Nat)
    (hg : m.token.payload.gufi < 2 ^ 128)
    (hu : isUUID4 m.token.payload.gufi = true)
    (hbw : IsF32 m.token.payload.bbox.west = true)
    (hbs : IsF32 m.token.payload.bbox.south = true)
    (hbe : IsF32 m.token.payload.bbox.east = true)
    (hbn : IsF32 m.token.payload.bbox.north = true)
    (hsig64 : m.token.signature.length = 64)
    (hfl : tickFloor m.token.payload.nbf = m.token.payload.nbf)
    (hfc : tickCeil m.token.payload.exp = m.token.payload.exp)
    (hp1 : IsF32 m.payload.lat_deg = true) (hp2 : IsF32 m.payload.lon_deg = true)
    (hp3 : IsF32 m.payload.alt_hae_ft = true)
    (hp4 : IsF32 m.payload.vel_ew_fps = true)
    (hp5 : IsF32 m.payload.vel_ns_fps = true)
    (hp6 : IsF32 m.payload.vel_vert_fps = true)
    (hp7 : IsF32 m.payload.toa_utc = true)
    (hS1 : IbsComponentWF m.signature.S1)
    (hS2 : IbsComponentWF m.signature.S2)
    (hS3 : IbsComponentWF m.signature.S3)
    (hm : m.pack = some bytes) :
    Message.unpack bytes = some m := by
  obtain ⟨tb, pb, r1, r2, r3, htb, hpb, h1, h2, h3, hkid, hbytes⟩ :=
    message_pack_spec m bytes hm
  obtain ⟨q1, hq1, hq1len, hq1lt⟩ := hS1
  obtain ⟨q2, hq2, hq2len, hq2lt⟩ := hS2
  obtain ⟨q3, hq3, hq3len, hq3lt⟩ := hS3
  have hr1 : r1 = q1 := by
    rw [hq1] at h1
    simp only [List.drop] at h1
    rw [b64decode_b64encode q1 hq1lt] at h1
    simp only [Option.some.injEq] at h1
    exact h1.symm
  have hr2 : r2 = q2 := by
    rw [hq2] at h2
    simp only [List.drop] at h2
    rw [b64decode_b64encode q2 hq2lt] at h2
    simp only [Option.some.injEq] at h2
    exact h2.symm
  have hr3 : r3 = q3 := by
    rw [hq3] at h3
    simp only [List.drop] at h3
    rw [b64decode_b64encode q3 hq3lt] at h3
    simp only [Option.some.injEq] at h3
    exact h3.symm
  subst hr1
  subst hr2
  subst hr3
  have htblen : tb.length = 108 := token_pack_length m.token tb hsig64 htb
  have hpblen : pb.length = 28 := stateUpdate_pack_length m.payload pb hpb
  rw [sPad_of_length 108 tb htblen, sPad_of_length 28 pb hpblen,
    sPad_of_length 21 r1 hq1len, sPad_of_length 21 r2 hq2len,
    sPad_of_length 21 r3 hq3len] at hbytes
  subst hbytes
  unfold Message.unpack
  rw [if_pos (by simp [toBytesBE_length, htblen, hpblen, hq1len, hq2len,
    hq3len])]
  dsimp only
  rw [List.take_left' htblen, List.drop_left' htblen]
  have htok : Token.unpack tb = some m.token := by
    rw [token_unpack_pack m.token tb hg hu hbw hbs hbe hbn hsig64 htb, hfl,
      hfc]
  rw [htok]
  simp only [Option.bind_eq_bind, Option.some_bind]
  rw [List.take_left' (toBytesBE_length 4 m.kid),
    List.drop_left' (toBytesBE_length 4 m.kid)]
  rw [List.take_left' hpblen, List.drop_left' hpblen]
  rw [stateUpdate_unpack_pack m.payload pb hp1 hp2 hp3 hp4 hp5 hp6 hp7 hpb]
  simp only [Option.bind_eq_bind, Option.some_bind]
  rw [List.take_left' hq1len, List.drop_left' hq1len,
    List.take_left' hq2len, List.drop_left' hq2len,
    List.take_of_length_le (le_of_eq hq3len)]
  rw [fromBytesBE_toBytesBE 4 m.kid (by norm_num at hkid ⊢; omega)]
  rw [← hq1, ← hq2, ← hq3]
  rfl

/-- C2: pack/unpack round-trips on the wire types.  For a `TokenPayload`,
`unpack (pack p)` returns `p` with `nbf` floored and `exp` ceiled to the
tick grid — the identity when both lie on tick boundaries.  For a `Token`
at tick boundaries, `unpack (pack t) = t`, and `Token.unpack` on the base64
ASCII form of `pack t` agrees with `Token.unpack` on `pack t`.  For a
`Message`, `unpack (pack m) = m`, the three 21-byte IBS components being
re-serialized with the 2-byte `1:` prefix reattached (which is the identity
on their canonical serialized form).  Well-formedness asks only what the
pydantic/wire model already guarantees: a version-4 UUID gufi, binary32
coordinate values, a 64-byte signature, and `1:`-prefixed canonical
components. -/
theorem C2_pack_unpack_roundtrip :
    (∀ (p : TokenPayload) (bytes : List Nat),
      p.gufi < 2 ^ 128 → isUUID4 p.gufi = true →
      IsF32 p.bbox.west = true → IsF32 p.bbox.south = true →
      IsF32 p.bbox.east = true → IsF32 p.bbox.north = true →
      p.pack = some bytes →
      TokenPayload.unpack bytes =
        some { p with nbf := tickFloor p.nbf, exp := tickCeil p.exp } ∧
      (tickFloor p.nbf = p.nbf → tickCeil p.exp = p.exp →
        TokenPayload.unpack bytes = some p)) ∧
    (∀ (t : Token) (bytes : List Nat),
      t.payload.gufi < 2 ^ 128 → isUUID4 t.payload.gufi = true →
      IsF32 t.payload.bbox.west = true → IsF32 t.payload.bbox.south = true →
      IsF32 t.payload.bbox.east = true → IsF32 t.payload.bbox.north = true →
      t.signature.length = 64 →
      tickFloor t.payload.nbf = t.payload.nbf →
      tickCeil t.payload.exp = t.payload.exp →
      t.pack = some bytes →
      Token.unpack bytes = some t) ∧
    (∀ (t : Token) (bytes : List Nat),
      (∀ b ∈ t.signature, b < 256) →
      t.pack = some bytes →
      Token.unpackWire (.str (b64encode bytes)) =
        Token.unpackWire (.bin bytes)) ∧
    (∀ (m : Message) (bytes : List Nat),
      m.token.payload.gufi < 2 ^ 128 → isUUID4 m.token.payload.gufi = true →
      IsF32 m.token.payload.bbox.west = true →
      IsF32 m.token.payload.bbox.south = true →
      IsF32 m.token.payload.bbox.east = true →
      IsF32 m.token.payload.bbox.north = true →
      m.token.signature.length = 64 →
      tickFloor m.token.payload.nbf = m.token.payload.nbf →
      tickCeil m.token.payload.exp = m.token.payload.exp →
      IsF32 m.payload.lat_deg = true → IsF32 m.payload.lon_deg = true →
      IsF32 m.payload.alt_hae_ft = true → IsF32 m.payload.vel_ew_fps = true →
      IsF32 m.payload.vel_ns_fps = true → IsF32 m.payload.vel_vert_fps = true →
      IsF32 m.payload.toa_utc = true →
      IbsComponentWF m.signature.S1 → IbsComponentWF m.signature.S2 →
      IbsComponentWF m.signature.S3 →
      m.pack = some bytes →
      Message.unpack bytes = some m) := by
  refine ⟨?_, ?_, ?_, ?_⟩
  · intro p bytes hg hu hbw hbs hbe hbn hp
    have h := tokenPayload_unpack_pack p bytes hg hu hbw hbs hbe hbn hp
    refine ⟨h, ?_⟩
    intro hfl hfc
    rw [h, hfl, hfc]
  · intro t bytes hg hu hbw hbs hbe hbn hsig hfl hfc ht
    rw [token_unpack_pack t bytes hg hu hbw hbs hbe hbn hsig ht, hfl, hfc]
  · intro t bytes hlt ht
    unfold Token.unpackWire
    dsimp only
    rw [b64decode_b64encode bytes (token_pack_bytes_lt t bytes hlt ht),
      Option.some_bind]
  · intro m bytes hg hu hbw hbs hbe hbn hsig hfl hfc hp1 hp2 hp3 hp4 hp5
      hp6 hp7 hS1 hS2 hS3 hm
    exact message_unpack_pack m bytes hg hu hbw hbs hbe hbn hsig hfl hfc
      hp1 hp2 hp3 hp4 hp5 hp6 hp7 hS1 hS2 hS3 hm

/-- Concrete values for the C2 witness. -/
def cPayload : TokenPayload :=
  { gufi := 2 ^ 78 + 2 ^ 63
    nbf := MIN_DATETIME
    exp := MIN_DATETIME + 500000
    bbox := ⟨-72, 41, -70, 43⟩ }

def cPayloadOff : TokenPayload :=
  { gufi := 2 ^ 78 + 2 ^ 63
    nbf := MIN_DATETIME + 450000
    exp := MIN_DATETIME + 550000
    bbox := ⟨-72, 41, -70, 43⟩ }

def cPayloadBytes : List Nat := (cPayload.pack).getD []

def cPayloadOffBytes : List Nat := (cPayloadOff.pack).getD []

def cToken : Token :=
  { payload := cPayload, kid := 7, signature := List.replicate 64 9 }

def cTokenBytes : List Nat := (cToken.pack).getD []

def cSigComponent : List Nat := 49 :: 58 :: b64encode (List.replicate 21 5)

def cMessage : Message :=
  { token := cToken
    kid := 3
    payload :=
      { lat_deg := 41, lon_deg := -71, alt_hae_ft := 1000
        vel_ew_fps := 10, vel_ns_fps := -10, vel_vert_fps := 0
        toa_utc := 1000 }
    signature := ⟨cSigComponent, cSigComponent, cSigComponent⟩ }

def cMessageBytes : List Nat := (cMessage.pack).getD []

/-- C2 witness: the four parts of the round-trip theorem applied to a
concrete payload (on and off tick boundaries), token and message. -/
theorem C2_pack_unpack_roundtrip_witness :
    TokenPayload.unpack cPayloadBytes = some cPayload ∧
    TokenPayload.unpack cPayloadOffBytes = some
      { cPayloadOff with nbf := tickFloor cPayloadOff.nbf
                         exp := tickCeil cPayloadOff.exp } ∧
    Token.unpack cTokenBytes = some cToken ∧
    Token.unpackWire (.str (b64encode cTokenBytes)) =
      Token.unpackWire (.bin cTokenBytes) ∧
    Message.unpack cMessageBytes = some cMessage :=
  ⟨(C2_pack_unpack_roundtrip.1 cPayload cPayloadBytes (by decide!)
      (by decide!) (by decide!) (by decide!) (by decide!) (by decide!)
      (by decide!)).2 (by decide!) (by decide!),
   (C2_pack_unpack_roundtrip.1 cPayloadOff cPayloadOffBytes (by decide!)
      (by decide!) (by decide!) (by decide!) (by decide!) (by decide!)
      (by decide!)).1,
   C2_pack_unpack_roundtrip.2.1 cToken cTokenBytes (by decide!) (by decide!)
     (by decide!) (by decide!) (by decide!) (by decide!) (by decide!)
     (by decide!) (by decide!) (by decide!),
   C2_pack_unpack_roundtrip.2.2.1 cToken cTokenBytes (by decide!)
     (by decide!),
   C2_pack_unpack_roundtrip.2.2.2 cMessage cMessageBytes (by decide!)
     (by decide!) (by decide!) (by decide!) (by decide!) (by decide!)
     (by decide!) (by decide!) (by decide!) (by decide!) (by decide!)
     (by decide!) (by decide!) (by decide!) (by decide!) (by decide!)
     ⟨List.replicate 21 5, rfl, by decide!, by decide!⟩
     ⟨List.replicate 21 5, rfl, by decide!, by decide!⟩
     ⟨List.replicate 21 5, rfl, by decide!, by decide!⟩
     (by decide!)⟩

/-! ### C1: the validate_msg check order and acceptance condition -/

/-- The spatial-containment proposition computed by `bbox_includes` on
in-range inputs (wrap rule when east < west). -/
def Contains (bbox : BBox) (loc : ℚ × ℚ) : Prop :=
  bbox.south ≤ loc.2 ∧ loc.2 ≤ bbox.north ∧
    if bbox.east < bbox.west then bbox.west ≤ loc.1 ∨ loc.1 ≤ bbox.east
    else bbox.west ≤ loc.1 ∧ loc.1 ≤ bbox.east

instance (bbox : BBox) (loc : ℚ × ℚ) : Decidable (Contains bbox loc) := by
  unfold Contains
  infer_instance

theorem messageValidate_eq {PK PP : Type}
    (pksVerify : PK → List Nat → List Nat → Bool)
    (ibsVerify : PP → List Nat → List Nat → IbsSignature → Bool)
    (m : Message) (mkpk : PP) (tkpk : PK) (time : ℤ) (loc : ℚ × ℚ)
    (tpb spb : List Nat)
    (hlon : |loc.1| ≤ 180) (hlat : |loc.2| ≤ 90)
    (hbw : |m.token.payload.bbox.west| ≤ 180)
    (hbs : |m.token.payload.bbox.south| ≤ 90)
    (hbe : |m.token.payload.bbox.east| ≤ 180)
    (hbn : |m.token.payload.bbox.north| ≤ 90)
    (htpb : m.token.payload.pack = some tpb)
    (hspb : m.payload.pack = some spb) :
    m.validate_ pksVerify ibsVerify mkpk tkpk time loc =
      (if m.token.payload.exp < time then .error .tokenExpired
       else if time < m.token.payload.nbf then .error .tokenNotYetValid
       else if ¬ Contains m.token.payload.bbox loc then
         .error .tokenSpatialBoundsExceeded
       else if pksVerify tkpk tpb m.token.signature = false then
         .error .tokenSignatureInvalid
       else if ibsVerify mkpk (gufiStr m.token.payload.gufi) spb m.signature
           = false then
         .error .messageSignatureInvalid
       else .ok ()) := by
  have hbbox : bbox_includes m.token.payload.bbox loc =
      .ok (decide (Contains m.token.payload.bbox loc)) := by
    rw [bbox_includes_inRange m.token.payload.bbox loc hlon hlat
      hbw hbs hbe hbn]
    have hd : decide (Contains m.token.payload.bbox loc) =
        decide (m.token.payload.bbox.south ≤ loc.2 ∧
          loc.2 ≤ m.token.payload.bbox.north ∧
          if m.token.payload.bbox.east < m.token.payload.bbox.west then
            m.token.payload.bbox.west ≤ loc.1 ∨
              loc.1 ≤ m.token.payload.bbox.east
          else m.token.payload.bbox.west ≤ loc.1 ∧
            loc.1 ≤ m.token.payload.bbox.east) := by
      rw [decide_eq_decide]
      unfold Contains
      exact Iff.rfl
    rw [hd]
  unfold Message.validate_ Token.validate_ TokenPayload.validate_
  rw [htpb, hspb, hbbox]
  by_cases hexp : m.token.payload.exp < time
  · rw [if_pos hexp, if_pos hexp]
    rfl
  · rw [if_neg hexp, if_neg hexp]
    by_cases hnbf : time < m.token.payload.nbf
    · rw [if_pos hnbf, if_pos hnbf]
      rfl
    · rw [if_neg hnbf, if_neg hnbf]
      by_cases hc : Contains m.token.payload.bbox loc
      · rw [decide_eq_true hc]
        rw [if_neg (by simp [hc])]
        dsimp only
        by_cases hpks : pksVerify tkpk tpb m.token.signature = false
        · rw [if_pos hpks]
          rw [if_neg (by simp only [hpks]; simp)]
          rfl
        · rw [if_neg hpks]
          simp only [Bool.not_eq_false] at hpks
          rw [if_pos hpks]
          simp only [Bind.bind, Except.bind]
          by_cases hibs : ibsVerify mkpk (gufiStr m.token.payload.gufi) spb
              m.signature = false
          · rw [if_pos hibs]
            rw [if_neg (by simp only [hibs]; simp)]
          · rw [if_neg hibs]
            simp only [Bool.not_eq_false] at hibs
            rw [if_pos hibs]
      · rw [decide_eq_false hc, if_pos hc]
        rfl

set_option maxHeartbeats 1000000 in
/-- C1: `validate_msg` checks, in order: message-key lookup (noMessageKey),
message-key expiry and not-yet-valid windows, token-key lookup (noTokenKey),
token-key windows, token payload expiry and not-yet-valid, spatial
containment of the reported location in the token bbox, the conventional
(PKS) token signature over the packed token payload, and the IBS message
signature over the packed state update keyed by the token gufi; it returns
ok () iff every check passes, and the first failing check's error
otherwise. -/
theorem C1_validate_msg {PK PP : Type}
    (pksVerify : PK → List Nat → List Nat → Bool)
    (ibsVerify : PP → List Nat → List Nat → IbsSignature → Bool)
    (message_keys : Nat → Option (MessageKey PP))
    (token_keys : Nat → Option (TokenKey PK))
    (msg : Message) (time : ℤ) (loc : ℚ × ℚ) (tpb spb : List Nat)
    (hlon : |loc.1| ≤ 180) (hlat : |loc.2| ≤ 90)
    (hbw : |msg.token.payload.bbox.west| ≤ 180)
    (hbs : |msg.token.payload.bbox.south| ≤ 90)
    (hbe : |msg.token.payload.bbox.east| ≤ 180)
    (hbn : |msg.token.payload.bbox.north| ≤ 90)
    (htpb : msg.token.payload.pack = some tpb)
    (hspb : msg.payload.pack = some spb) :
    validate_msg pksVerify ibsVerify message_keys token_keys msg time loc =
      (match message_keys msg.kid with
       | none => .error .noMessageKey
       | some message_key =>
         if message_key.exp < time then .error .messageKeyExpired
         else if time < message_key.nbf then .error .messageKeyNotYetValid
         else
           match token_keys msg.token.kid with
           | none => .error .noTokenKey
           | some token_key =>
             if token_key.exp < time then .error .tokenKeyExpired
             else if time < token_key.nbf then .error .tokenKeyNotYetValid
             else if msg.token.payload.exp < time then .error .tokenExpired
             else if time < msg.token.payload.nbf then
               .error .tokenNotYetValid
             else if ¬ Contains msg.token.payload.bbox loc then
               .error .tokenSpatialBoundsExceeded
             else if pksVerify token_key.public_key tpb msg.token.signature
                 = false then .error .tokenSignatureInvalid
             else if ibsVerify message_key.public_key
                 (gufiStr msg.token.payload.gufi) spb msg.signature = false
               then .error .messageSignatureInvalid
             else .ok ()) ∧
    (validate_msg pksVerify ibsVerify message_keys token_keys msg time loc
        = .ok () ↔
      ∃ message_key token_key,
        message_keys msg.kid = some message_key ∧
        token_keys msg.token.kid = some token_key ∧
        time ≤ message_key.exp ∧ message_key.nbf ≤ time ∧
        time ≤ token_key.exp ∧ token_key.nbf ≤ time ∧
        time ≤ msg.token.payload.exp ∧ msg.token.payload.nbf ≤ time ∧
        Contains msg.token.payload.bbox loc ∧
        pksVerify token_key.public_key tpb msg.token.signature = true ∧
        ibsVerify message_key.public_key (gufiStr msg.token.payload.gufi)
          spb msg.signature = true) := by
  have hflat : validate_msg pksVerify ibsVerify message_keys token_keys msg
      time loc =
      (match message_keys msg.kid with
       | none => .error .noMessageKey
       | some message_key =>
         if message_key.exp < time then .error .messageKeyExpired
         else if time < message_key.nbf then .error .messageKeyNotYetValid
         else
           match token_keys msg.token.kid with
           | none => .error .noTokenKey
           | some token_key =>
             if token_key.exp < time then .error .tokenKeyExpired
             else if time < token_key.nbf then .error .tokenKeyNotYetValid
             else if msg.token.payload.exp < time then .error .tokenExpired
             else if time < msg.token.payload.nbf then
               .error .tokenNotYetValid
             else if ¬ Contains msg.token.payload.bbox loc then
               .error .tokenSpatialBoundsExceeded
             else if pksVerify token_key.public_key tpb msg.token.signature
                 = false then .error .tokenSignatureInvalid
             else if ibsVerify message_key.public_key
                 (gufiStr msg.token.payload.gufi) spb msg.signature = false
               then .error .messageSignatureInvalid
             else .ok ()) := by
    unfold validate_msg
    cases hmk : message_keys msg.kid with
    | none => rfl
    | some message_key =>
      dsimp only
      by_cases h1 : message_key.exp < time
      · rw [if_pos h1, if_pos h1]
      · rw [if_neg h1, if_neg h1]
        by_cases h2 : time < message_key.nbf
        · rw [if_pos h2, if_pos h2]
        · rw [if_neg h2, if_neg h2]
          cases htk : token_keys msg.token.kid with
          | none => rfl
          | some token_key =>
            dsimp only
            by_cases h3 : token_key.exp < time
            · rw [if_pos h3, if_pos h3]
            · rw [if_neg h3, if_neg h3]
              by_cases h4 : time < token_key.nbf
              · rw [if_pos h4, if_pos h4]
              · rw [if_neg h4, if_neg h4]
                exact messageValidate_eq pksVerify ibsVerify msg
                  message_key.public_key token_key.public_key time loc
                  tpb spb hlon hlat hbw hbs hbe hbn htpb hspb
  refine ⟨hflat, ?_⟩
  rw [hflat]
  clear hflat
  cases hmk : message_keys msg.kid with
  | none => simp
  | some mk =>
    dsimp only
    cases htk : token_keys msg.token.kid with
    | none =>
      split_ifs <;> simp
    | some tk =>
      dsimp only
      split_ifs with h1 h2 h3 h4 h5 h6 h7 h8 h9 <;>
        first
          | exact ⟨fun hh => ⟨mk, tk, rfl, rfl, by omega, by omega, by omega,
              by omega, by omega, by omega, by tauto, by simpa using h8,
              by simpa using h9⟩, fun hh => rfl⟩
          | (refine ⟨fun hh => absurd hh (by simp), fun hh => ?_⟩
             obtain ⟨mk2, tk2, hmk2, htk2, c1, c2, c3, c4, c5, c6, c7, c8,
               c9⟩ := hh
             injection hmk2 with e1
             injection htk2 with e2
             subst e1
             subst e2
             exfalso
             first
               | omega
               | exact h7 c7
               | exact absurd (c8.symm.trans h8) (by simp)
               | exact absurd (c9.symm.trans h9) (by simp))

def cMK : MessageKey Unit :=
  { kid := 3, nbf := MIN_DATETIME - 1000, exp := MIN_DATETIME + 1000000
    public_key := () }

def cTK : TokenKey Unit :=
  { kid := 7, nbf := MIN_DATETIME - 1000, exp := MIN_DATETIME + 1000000
    public_key := () }

def cStateBytes : List Nat := (cMessage.payload.pack).getD []

/-- C1 witness: with accepting verifiers, in-window keys under kids 3 and 7
and a location inside the token's bbox at its nbf instant, validate_msg
accepts the concrete message. -/
theorem C1_validate_msg_witness :
    validate_msg (fun (_ : Unit) _ _ => true) (fun (_ : Unit) _ _ _ => true)
      (fun k => if k = 3 then some cMK else none)
      (fun k => if k = 7 then some cTK else none)
      cMessage MIN_DATETIME ((-71 : ℚ), (42 : ℚ)) = .ok () := by
  have h := (C1_validate_msg (fun (_ : Unit) _ _ => true)
    (fun (_ : Unit) _ _ _ => true)
    (fun k => if k = 3 then some cMK else none)
    (fun k => if k = 7 then some cTK else none)
    cMessage MIN_DATETIME ((-71 : ℚ), (42 : ℚ)) cPayloadBytes cStateBytes
    (by decide!) (by decide!) (by decide!) (by decide!) (by decide!)
    (by decide!) (by decide!) (by decide!)).1
  exact h.trans (by decide!)

/-! ### C8: conventional signature verification -/

/-- C8: `pks.verify` always returns a boolean and never propagates an
exception: it returns `true` exactly when the Ed25519 primitive accepts the
signature, and `false` exactly when the primitive raises
`InvalidSignature`. -/
theorem C8_pks_verify {PK : Type}
    (prim : PK → List Nat → List Nat → Ed25519Outcome)
    (public_key : PK) (msg signature : List Nat) :
    (pksVerifyWrapper prim public_key msg signature = true ↔
      prim public_key msg signature = .valid) ∧
    (pksVerifyWrapper prim public_key msg signature = false ↔
      prim public_key msg signature = .invalidSignature) := by
  cases h : prim public_key msg signature <;>
    simp [pksVerifyWrapper, h]

/-! ### C9: the receive and transmit queues -/

/-- Repeated non-blocking offers (`put_nowait` with `QueueFull` caught):
the final queue and whether any offer was dropped. -/
def offerAll {α : Type} (q : AsyncQueue α) : List α → AsyncQueue α × Bool
  | [] => (q, false)
  | x :: rest =>
    match offerDropOnFull q x with
    | (q2, d) =>
      match offerAll q2 rest with
      | (q3, d2) => (q3, d || d2)

theorem offerAll_unbounded {α : Type} (xs : List α) (q : AsyncQueue α)
    (h : q.maxsize ≤ 0) :
    offerAll q xs = ({ q with items := q.items ++ xs }, false) := by
  induction xs generalizing q with
  | nil => simp [offerAll]
  | cons x rest ih =>
    have hfull : q.full = false := by
      simp [AsyncQueue.full]
      intro hc
      omega
    have hoffer : offerDropOnFull q x =
        ({ q with items := q.items ++ [x] }, false) := by
      simp [offerDropOnFull, AsyncQueue.putNowait, hfull]
    simp only [offerAll, hoffer]
    rw [ih { q with items := q.items ++ [x] } h]
    simp

/-- C9 counterexample: both queues are constructed by `transceiver.start`
as `Queue()` with the default `maxsize = 0`, which asyncio treats as
infinite capacity: offering 1000 items to a freshly started queue drops
nothing, leaves 1000 queued items, and the queue is still not full, so no
finite capacity bounds the queue and drop-on-full never fires. -/
theorem C9_bounded_counterexample :
    (startQueue Nat).maxsize = 0 ∧
    (offerAll (startQueue Nat) (List.replicate 1000 0)).2 = false ∧
    ((offerAll (startQueue Nat) (List.replicate 1000 0)).1.items).length
      = 1000 ∧
    (offerAll (startQueue Nat) (List.replicate 1000 0)).1.full = false := by
  refine ⟨rfl, ?_, ?_, ?_⟩ <;>
    rw [offerAll_unbounded _ _ (by decide)] <;> decide!

/-- C9 (amended): `start` builds both queues as `Queue()` with
`maxsize = 0`; a queue with non-positive maxsize is never full, its
`put_nowait` always succeeds by appending (FIFO order preserved), and the
link/producer offers never drop a message. -/
theorem C9_queues_unbounded {α : Type} (xs : List α) (q : AsyncQueue α)
    (h : q.maxsize ≤ 0) :
    (startQueue α).maxsize = 0 ∧
    q.full = false ∧
    (∀ x, q.putNowait x = .ok { q with items := q.items ++ [x] }) ∧
    offerAll q xs = ({ q with items := q.items ++ xs }, false) := by
  have hfull : q.full = false := by
    simp [AsyncQueue.full]
    intro hc
    omega
  refine ⟨rfl, hfull, ?_, offerAll_unbounded xs q h⟩
  intro x
  simp [AsyncQueue.putNowait, hfull]

/-- C9 witness: the amended theorem applied to the freshly started queue
and three concrete offers. -/
theorem C9_queues_unbounded_witness :
    (startQueue Nat).maxsize ≤ 0 ∧
    ((startQueue Nat).maxsize = 0 ∧
     (startQueue Nat).full = false ∧
     (∀ x, (startQueue Nat).putNowait x =
       .ok { startQueue Nat with items := (startQueue Nat).items ++ [x] }) ∧
     offerAll (startQueue Nat) [1, 2, 3] =
       ({ startQueue Nat with items := (startQueue Nat).items ++ [1, 2, 3] },
        false)) :=
  ⟨by decide, C9_queues_unbounded [1, 2, 3] (startQueue Nat) (by decide)⟩

/-! ### C10: the black-hat replay handler -/

theorem roundHalfEven_intCast (m : ℤ) : roundHalfEven (m : ℚ) = m := by
  have hf : ratFloor (m : ℚ) = m := by
    simp [ratFloor]
  unfold roundHalfEven
  dsimp only
  rw [hf]
  rw [sub_self]
  norm_num

theorem posix_roundtrip (m : ℤ) :
    datetimeToPosix (utcfromtimestamp ((m : ℚ) / 1000000)) =
      (m : ℚ) / 1000000 := by
  unfold utcfromtimestamp datetimeToPosix
  have h : (m : ℚ) / 1000000 * 1000000 = (m : ℚ) := by
    field_simp
  rw [h, roundHalfEven_intCast]
  push_cast
  ring

def dRandoms : Randoms := ⟨1/2, 1/2, 1/2, 1/2, 1/2, 1/2⟩

def dPayload : TokenPayload :=
  { gufi := 2 ^ 78 + 2 ^ 63
    nbf := MIN_DATETIME
    exp := MIN_DATETIME + 500000
    bbox := ⟨170, -10, -170, 10⟩ }

def dMessage : Message :=
  { token := { payload := dPayload, kid := 7
               signature := List.replicate 64 9 }
    kid := 3
    payload :=
      { lat_deg := 0, lon_deg := 175, alt_hae_ft := 1000
        vel_ew_fps := 10, vel_ns_fps := -10, vel_vert_fps := 0
        toa_utc := 1000 }
    signature := ⟨cSigComponent, cSigComponent, cSigComponent⟩ }

def dBytes : List Nat := (dMessage.pack).getD []

/-- The replayed message the black hat transmits in the counterexample run:
every draw is 1/2, so the fresh longitude is the arithmetic midpoint 0 of
west = 170 and east = -170 — on the wrong side of the antimeridian. -/
def dReplayed : Message :=
  { dMessage with payload :=
      { lat_deg := 0, lon_deg := 0, alt_hae_ft := 5000
        vel_ew_fps := 0, vel_ns_fps := 0, vel_vert_fps := 0
        toa_utc := 1000 } }

def dOut : List Nat := (dReplayed.pack).getD []

/-- C10 counterexample: for a valid message whose token bbox spans the
antimeridian (west = 170, east = -170), the black-hat handler accepts the
message and transmits a replay, but the fresh position is drawn by
`random.uniform(west, east)` on the reversed interval: with every draw at
1/2 the replayed longitude is 0, which `bbox_includes` places OUTSIDE the
token's bbox — the fresh state is not drawn inside the bbox. -/
theorem C10_black_hat_replay_counterexample :
    blackHatReceive (fun (_ : Unit) _ _ => true)
        (fun (_ : Unit) _ _ _ => true)
        (fun k => if k = 3 then some cMK else none)
        (fun k => if k = 7 then some cTK else none)
        dRandoms MIN_DATETIME dBytes = some dOut ∧
    Message.unpack dOut = some dReplayed ∧
    dReplayed.payload.lon_deg = 0 ∧
    bbox_includes dMessage.token.payload.bbox
      (dReplayed.payload.lon_deg, dReplayed.payload.lat_deg) =
      .ok false := by
  refine ⟨by decide!, by decide!, by decide!, by decide!⟩

/-- C10 (amended): on every received byte string that unpacks to `msg`, the
black-hat handler transmits `some out` iff `validate_msg` at the message's
OWN reported position `(msg.payload.lon_deg, msg.payload.lat_deg)` accepts
(no self-echo gufi check is performed — acceptance is the only gate) and
the repack of `msg` with its payload replaced by the random state over the
token bbox succeeds; the fresh state's timestamp is `msg.payload.toa_utc`
(for a microsecond-quantized timestamp), and the fresh position lies
inside the token bbox WHEN the bbox does not wrap the antimeridian
(west ≤ east). -/
theorem C10_black_hat_replay {PK PP : Type}
    (pksVerify : PK → List Nat → List Nat → Bool)
    (ibsVerify : PP → List Nat → List Nat → IbsSignature → Bool)
    (message_keys : Nat → Option (MessageKey PP))
    (token_keys : Nat → Option (TokenKey PK))
    (u : Randoms) (time : ℤ) (msg : Message) (data : List Nat) (m : ℤ)
    (hunp : Message.unpack data = some msg)
    (hr1 : 0 ≤ u.r1) (hr1' : u.r1 ≤ 1) (hr2 : 0 ≤ u.r2) (hr2' : u.r2 ≤ 1)
    (hwe : msg.token.payload.bbox.west ≤ msg.token.payload.bbox.east)
    (hsn : msg.token.payload.bbox.south ≤ msg.token.payload.bbox.north)
    (hm : msg.payload.toa_utc = (m : ℚ) / 1000000) :
    (∀ out, blackHatReceive pksVerify ibsVerify message_keys token_keys
        u time data = some out ↔
      (validate_msg pksVerify ibsVerify message_keys token_keys msg time
        (msg.payload.lon_deg, msg.payload.lat_deg) = .ok () ∧
       Message.pack { msg with payload := (RandomNavSource.get_state
         msg.token.payload.bbox u (utcfromtimestamp msg.payload.toa_utc)) }
         = some out)) ∧
    Contains msg.token.payload.bbox
      ((RandomNavSource.get_state msg.token.payload.bbox u
         (utcfromtimestamp msg.payload.toa_utc)).lon_deg,
       (RandomNavSource.get_state msg.token.payload.bbox u
         (utcfromtimestamp msg.payload.toa_utc)).lat_deg) ∧
    (RandomNavSource.get_state msg.token.payload.bbox u
      (utcfromtimestamp msg.payload.toa_utc)).toa_utc =
      msg.payload.toa_utc := by
  refine ⟨?_, ?_, ?_⟩
  · intro out
    unfold blackHatReceive
    rw [hunp]
    dsimp only [Bind.bind, Option.bind]
    cases hv : validate_msg pksVerify ibsVerify message_keys token_keys msg
      time (msg.payload.lon_deg, msg.payload.lat_deg) with
    | error e => simp
    | ok v => simp
  · unfold Contains RandomNavSource.get_state uniform
    dsimp only
    rw [if_neg (not_lt.mpr hwe)]
    have h1 : 0 ≤ (msg.token.payload.bbox.north -
        msg.token.payload.bbox.south) * u.r1 :=
      mul_nonneg (by linarith) hr1
    have h2 : (msg.token.payload.bbox.north -
        msg.token.payload.bbox.south) * u.r1 ≤
        msg.token.payload.bbox.north - msg.token.payload.bbox.south :=
      mul_le_of_le_one_right (by linarith) hr1'
    have h3 : 0 ≤ (msg.token.payload.bbox.east -
        msg.token.payload.bbox.west) * u.r2 :=
      mul_nonneg (by linarith) hr2
    have h4 : (msg.token.payload.bbox.east -
        msg.token.payload.bbox.west) * u.r2 ≤
        msg.token.payload.bbox.east - msg.token.payload.bbox.west :=
      mul_le_of_le_one_right (by linarith) hr2'
    refine ⟨by linarith, by linarith, by linarith, by linarith⟩
  · dsimp only [RandomNavSource.get_state]
    rw [hm, posix_roundtrip]

/-- C10 witness: the amended theorem applied to the concrete message
`cMessage` (non-wrapping bbox), midpoint draws, and the key maps of the C1
witness. -/
theorem C10_black_hat_replay_witness :
    Message.unpack cMessageBytes = some cMessage ∧
    ((∀ out, blackHatReceive (fun (_ : Unit) _ _ => true)
        (fun (_ : Unit) _ _ _ => true)
        (fun k => if k = 3 then some cMK else none)
        (fun k => if k = 7 then some cTK else none)
        dRandoms MIN_DATETIME cMessageBytes = some out ↔
      (validate_msg (fun (_ : Unit) _ _ => true)
        (fun (_ : Unit) _ _ _ => true)
        (fun k => if k = 3 then some cMK else none)
        (fun k => if k = 7 then some cTK else none) cMessage MIN_DATETIME
        (cMessage.payload.lon_deg, cMessage.payload.lat_deg) = .ok () ∧
       Message.pack { cMessage with payload := (RandomNavSource.get_state
         cMessage.token.payload.bbox dRandoms
         (utcfromtimestamp cMessage.payload.toa_utc)) } = some out)) ∧
    Contains cMessage.token.payload.bbox
      ((RandomNavSource.get_state cMessage.token.payload.bbox dRandoms
         (utcfromtimestamp cMessage.payload.toa_utc)).lon_deg,
       (RandomNavSource.get_state cMessage.token.payload.bbox dRandoms
         (utcfromtimestamp cMessage.payload.toa_utc)).lat_deg) ∧
    (RandomNavSource.get_state cMessage.token.payload.bbox dRandoms
      (utcfromtimestamp cMessage.payload.toa_utc)).toa_utc =
      cMessage.payload.toa_utc) :=
  ⟨by decide!, C10_black_hat_replay (fun (_ : Unit) _ _ => true)
    (fun (_ : Unit) _ _ _ => true)
    (fun k => if k = 3 then some cMK else none)
    (fun k => if k = 7 then some cTK else none)
    dRandoms MIN_DATETIME cMessage cMessageBytes (10 ^ 9) (by decide!)
    (by decide!) (by decide!) (by decide!) (by decide!) (by decide!)
    (by decide!) (by decide!)⟩
